import Mathlib

/-!
# Header block (editorjs-header, `src/index.js`)

A shallow embedding of the `Header` class and of the fragment of the JavaScript
runtime that its methods rely on.

## Value model

`JSVal` covers the JSON-like values a block can be handed: `undefined`, `null`,
booleans, numbers, strings and plain objects (finite records of own data
properties).  Numbers are `NaN` and `num n`: an integer `n` that is a double
stands for that double, and `n` of magnitude `2^1024` stands for `Infinity`
or `-Infinity`.  `parseInt` rounds what it reads to the nearest double and
`Number::toString` prints the shortest digits that read back as the number.
Fractions, functions, symbols and arrays are outside the model.

## Failure model

Every `TypeError` the methods can raise is an `Err`; an operation on a block
returns its outcome together with the block as it stands at that point, so that
the assignments made before a failure stay visible.

## View model

The rendered element is a record of the properties the class touches.  Its
`innerHTML` holds what the view reads back.  `getTag`, `setData` and the
operations built on them store an assigned string as it is, which is what a
host document does with a string it has serialised itself.  `getTagOn`,
`setDataOn` and `mergeOn` take what the document reads back for an assigned
string as the parameter `dom`; with `dom` the identity they are `getTag`,
`setData` and `merge`.
-/

namespace HeaderTool

/-! ## JavaScript values -/

/-- The ways a method can throw.  All are `TypeError`s of the runtime; they are
told apart by the place that raises them. -/
inductive Err
  /-- Property read on `undefined` or `null`. -/
  | nullishData
  /-- Reading `find.data` in `getLevel` when `find` is `undefined`. -/
  | levelNotFound
  /-- String conversion of an object whose own `toString` is not callable. -/
  | notPrimitive
  /-- Calling `reduce` on an empty array without an initial value. -/
  | emptyReduce
  /-- Calling a property that is not a function (`text.trim` on a text that is
  not a string). -/
  | notCallable
  deriving DecidableEq, Repr

/-- JSON-like JavaScript values. -/
inductive JSVal
  | undefined
  | null
  | bool (b : Bool)
  | num (n : Int)
  | nan
  | str (s : String)
  | obj (fields : List (String × JSVal))

namespace JSVal

/-- The `typeof` operator. -/
def typeof : JSVal → String
  | undefined => "undefined"
  | null => "object"
  | bool _ => "boolean"
  | num _ => "number"
  | nan => "number"
  | str _ => "string"
  | obj _ => "object"

/-- The abstract operation `ToBoolean`. -/
def truthy : JSVal → Bool
  | undefined => false
  | null => false
  | bool b => b
  | num n => n != 0
  | nan => false
  | str s => s != ""
  | obj _ => true

/-- The operator `a || b`. -/
def or (a b : JSVal) : JSVal := if a.truthy then a else b

/-- The test `v !== undefined`. -/
def isDefined : JSVal → Bool
  | undefined => false
  | _ => true

/-- The test that a value is a string (`typeof v === 'string'`). -/
def isString : JSVal → Bool
  | str _ => true
  | _ => false

/-- Property read `v.key` for the data properties the class reads (`text`,
`level`): it throws on `undefined` and `null`, looks the key up among the own
properties of an object, and finds nothing on the other primitives. -/
def get (v : JSVal) (key : String) : Except Err JSVal :=
  match v with
  | undefined => .error .nullishData
  | null => .error .nullishData
  | obj fields => .ok ((fields.lookup key).getD undefined)
  | _ => .ok undefined

end JSVal

/-! ## Numbers and strings -/

/-- The character of a decimal digit. -/
def digitChar (d : Nat) : Char := Char.ofNat (48 + d)

/-- Decimal digits of `n`, least significant first; `fuel` bounds the number of
digits produced. -/
def revDigits : Nat → Nat → List Nat
  | 0, _ => []
  | fuel + 1, n => if n < 10 then [n] else (n % 10) :: revDigits fuel (n / 10)

/-- Decimal digits of `n`, most significant first. -/
def decimal (n : Nat) : List Char := ((revDigits (n + 1) n).reverse).map digitChar

/-- Drops the zeros that end a list of digit characters. -/
def stripZeros (ds : List Char) : List Char :=
  ((ds.reverse).dropWhile (fun c => c == '0')).reverse

/-- The notation of `Number::toString` for a positive integer of which every
significant digit is printed: plain decimal digits below `10^21`, exponent
form (`d.ddde+k`) from there on. -/
def posToString (m : Nat) : List Char :=
  if m < 10 ^ 21 then decimal m
  else
    match stripZeros (decimal m) with
    | [] => decimal m
    | d :: rest =>
      (d :: (if rest.isEmpty then [] else '.' :: rest))
        ++ [ 'e', '+'] ++ decimal ((decimal m).length - 1)

/-- Number of binary digits of `m`; `fuel` bounds the count. -/
def bitLength : Nat → Nat → Nat
  | 0, _ => 0
  | fuel + 1, m => if m = 0 then 0 else 1 + bitLength fuel (m / 2)

/-- The magnitude that stands for `Infinity`: `2^1024`, the first power of two
beyond the doubles. -/
def infinite : Nat := 2 ^ 256 * 2 ^ 256 * 2 ^ 256 * 2 ^ 256

/-- The double nearest to a non-negative integer, ties going to the even
significand of 53 binary digits; an integer that rounds beyond the largest
double gives `Infinity`. -/
def roundDouble (m : Nat) : Nat :=
  if m < 2 ^ 53 then m
  else if infinite ≤ m then infinite
  else
    let e := bitLength m m - 53
    let q := m / 2 ^ e
    let r := m % 2 ^ e
    let q2 := if 2 ^ e < 2 * r ∨ (2 * r = 2 ^ e ∧ q % 2 = 1) then q + 1 else q
    if infinite ≤ q2 * 2 ^ e then infinite else q2 * 2 ^ e

/-- The integer of `k` significant digits, among those of as many digits as
`x`, that reads back as the double `x`, if there is one: of the two
neighbours of `x` the nearer, and of two equally near the even one. -/
def shortestAt (x L k : Nat) : Option Nat :=
  let scale := 10 ^ (L - k)
  let lo := x / scale * scale
  let hi := lo + scale
  let okLo : Bool := roundDouble lo == x
  let okHi : Bool := roundDouble hi == x
  if okLo && okHi then
    if x - lo < hi - x then some lo
    else if hi - x < x - lo then some hi
    else if (lo / scale) % 2 = 0 then some lo else some hi
  else if okLo then some lo
  else if okHi then some hi
  else none

/-- The integer that `Number::toString` prints for the double `x`: the one
with the fewest significant digits that reads back as `x`.  Below `2^53` it
is `x` itself. -/
def shortestDigits (x : Nat) : Nat :=
  if x < 2 ^ 53 then x
  else
    let L := (decimal x).length
    (((List.range L).filterMap (fun i => shortestAt x L (i + 1))).head?).getD x

/-- `Number::toString` on the numbers `num n`. -/
def numberToString (n : Int) : String :=
  if n = 0 then "0"
  else if infinite ≤ n.natAbs then (if n < 0 then "-Infinity" else "Infinity")
  else if n < 0 then String.mk ( '-' :: posToString (shortestDigits n.natAbs))
  else String.mk (posToString (shortestDigits n.natAbs))

/-- White space and line terminators skipped by `parseInt` (`StrWhiteSpaceChar`). -/
def isStrWhiteSpace (c : Char) : Bool :=
  let n := c.toNat
  n == 9 || n == 10 || n == 11 || n == 12 || n == 13 || n == 32 || n == 160
    || n == 0x1680 || (0x2000 ≤ n && n ≤ 0x200A) || n == 0x2028 || n == 0x2029
    || n == 0x202F || n == 0x205F || n == 0x3000 || n == 0xFEFF

/-- Value of a character as a digit in radix up to 36. -/
def digitValue (c : Char) : Option Nat :=
  let n := c.toNat
  if 48 ≤ n ∧ n ≤ 57 then some (n - 48)
  else if 97 ≤ n ∧ n ≤ 122 then some (n - 87)
  else if 65 ≤ n ∧ n ≤ 90 then some (n - 55)
  else none

/-- The digits of radix `R` that start `cs`, up to the first character that is
not one. -/
def leadingDigits (R : Nat) : List Char → List Nat
  | [] => []
  | c :: cs =>
    match digitValue c with
    | some d => if d < R then d :: leadingDigits R cs else []
    | none => []

/-- Value of a list of digits in radix `R`, most significant first. -/
def digitsValue (R : Nat) (ds : List Nat) : Nat := ds.foldl (fun a d => a * R + d) 0

/-- The function `parseInt(string)` with no radix argument, on the characters of
its argument: skip white space, read a sign, read `0x` or `0X`, read the
longest run of digits, and round their value to a double.  `none` stands for
`NaN`. -/
def parseIntChars (cs : List Char) : Option Int :=
  let s := cs.dropWhile isStrWhiteSpace
  let negative : Bool := match s with
    | c :: _ => c == '-'
    | [] => false
  let s := match s with
    | c :: r => if c == '-' || c == '+' then r else s
    | [] => s
  let hex : Bool := match s with
    | a :: b :: _ => a == '0' && (b == 'x' || b == 'X')
    | _ => false
  let R := if hex then 16 else 10
  let s := if hex then s.drop 2 else s
  match leadingDigits R s with
  | [] => none
  | ds =>
    some (if negative then - (roundDouble (digitsValue R ds) : Int)
      else (roundDouble (digitsValue R ds) : Int))

namespace JSVal

/-- The abstract operation `ToString`.  A plain object converts through
`Object.prototype.toString`; an own `toString` property, which in this value
model is never callable, makes the conversion throw. -/
def toStr : JSVal → Except Err String
  | undefined => .ok "undefined"
  | null => .ok "null"
  | bool true => .ok "true"
  | bool false => .ok "false"
  | num n => .ok (numberToString n)
  | nan => .ok "NaN"
  | str s => .ok s
  | obj fields =>
    if fields.any (fun p => p.1 == "toString") then .error .notPrimitive
    else .ok "[object Object]"

end JSVal

/-- The global `parseInt(v)`: `ToString`, then the parse.  `none` is `NaN`. -/
def parseInt (v : JSVal) : Except Err (Option Int) :=
  match v.toStr with
  | .error e => .error e
  | .ok s => .ok (parseIntChars s.data)

/-! ## Configuration and data -/

/-- Settings of the tool as held in `this._settings`, that is once the
constructor has merged the default `defaultLevel: 2` with the configuration. -/
structure HeaderConfig where
  defaultLevel : Int := 2
  levels : Option (List Int) := none
  placeholder : Option String := none

/-- The record `this._data`. -/
structure HeaderData where
  text : JSVal
  level : Int

/-- The data record seen as a value, to be handed back to the class. -/
def HeaderData.toJS (d : HeaderData) : JSVal :=
  .obj [("text", d.text), ("level", .num d.level)]

/-- The expression `parseInt(v) || defaultLevel`. -/
def levelOr (p : Option Int) (defaultLevel : Int) : Int :=
  match p with
  | some n => if n != 0 then n else defaultLevel
  | none => defaultLevel

/-- The method `normalizeData(data)`. -/
def normalizeData (settings : HeaderConfig) (data : JSVal) : Except Err HeaderData :=
  let data := if data.typeof != "object" then JSVal.obj [] else data
  match data.get "text" with
  | .error e => .error e
  | .ok text =>
    match data.get "level" with
    | .error e => .error e
    | .ok level =>
      match parseInt level with
      | .error e => .error e
      | .ok p => .ok { text := text.or (.str ""), level := levelOr p settings.defaultLevel }

/-! ## Level catalog -/

/-- The static getter `Header.tags`. -/
def tags : List Int := [1, 2, 3, 4, 5, 6]

/-- The template literal that renders `H` followed by a level. -/
def hTag (level : Int) : String := "H" ++ numberToString level

/-- An entry of the catalog built by `getSubTools`; `level` is `data.level`. -/
structure SubTool where
  type : String
  level : Int
  icon : String

/-- The static method `getSubTools(config)`.  The icon table `ICON` is imported
from a module that is not part of the sources; it is a parameter. -/
def getSubTools (ICON : String → String) (config : HeaderConfig) : List SubTool :=
  let levels := match config.levels with
    | some configured => tags.filter (fun l => configured.contains l)
    | none => tags
  levels.map (fun level => { type := hTag level, level := level, icon := ICON (hTag level) })

/-- A level descriptor, as returned by `getLevel`. -/
structure Level where
  level : Int
  tag : String
  icon : String

/-- The descriptor seen as a value. -/
def Level.toJS (l : Level) : JSVal :=
  .obj [("level", .num l.level), ("tag", .str l.tag), ("icon", .str l.icon)]

/-- The method `getLevel(level)`: `find.data` throws when nothing is found. -/
def getLevel (ICON : String → String) (settings : HeaderConfig) (level : Int) :
    Except Err Level :=
  match (getSubTools ICON settings).find? (fun item => item.level == level) with
  | none => .error .levelNotFound
  | some find => .ok { level := find.level, tag := hTag find.level, icon := find.icon }

/-! ## The block -/

/-- What the class uses of the editor API: the translation function
`api.i18n.t` and the class names of `api.styles`. -/
structure Api where
  t : String → String
  block : String
  settingsButton : String
  settingsButtonActive : String

/-- The rendered element `this._element`; `header` and `placeholder` are the
entries of its `dataset`, `mounted` tells whether `parentNode` is set. -/
structure Element where
  classList : List String
  innerHTML : String
  header : String
  contentEditable : String
  placeholder : String
  mounted : Bool

/-- A settings button; `level` is `dataset.level`. -/
structure Button where
  classList : List String
  innerHTML : String
  level : String

/-- The call `classList.add(token)`. -/
def classAdd (classes : List String) (token : String) : List String :=
  if classes.contains token then classes else classes ++ [token]

/-- The call `classList.toggle(token, force)`. -/
def classToggle (classes : List String) (token : String) (force : Bool) : List String :=
  if force then classAdd classes token else classes.filter (fun c => c != token)

/-- The state of a constructed block. -/
structure Header where
  api : Api
  readOnly : Bool
  settings : HeaderConfig
  data : HeaderData
  settingsButtons : List Button
  element : Element

variable (ICON : String → String)

/-- The getter `currentLevel`. -/
def currentLevel (h : Header) : Except Err Level :=
  getLevel ICON h.settings (if h.data.level != 0 then h.data.level else h.settings.defaultLevel)

/-- The method `getTag()` on a block that has its element.  The element is
updated in place, so what was assigned before a failure stays assigned. -/
def getTag (h : Header) : Except Err Element × Header :=
  match (h.data.text.or (.str "")).toStr with
  | .error e => (.error e, h)
  | .ok html =>
    let h1 := { h with element := { h.element with innerHTML := html } }
    match currentLevel ICON h1 with
    | .error e => (.error e, h1)
    | .ok current =>
      let tag := { h1.element with
        header := current.tag
        contentEditable := if h1.readOnly then "false" else "true"
        placeholder := h1.api.t (h1.settings.placeholder.getD "") }
      (.ok tag, { h1 with element := tag })

/-- The element `getTag()` creates when the block has none yet. -/
def newTag : Element :=
  { classList := ["ce-header"], innerHTML := "", header := "",
    contentEditable := "inherit", placeholder := "", mounted := false }

/-- The configuration object handed to the constructor. -/
structure RawConfig where
  defaultLevel : Option Int := none
  levels : Option (List Int) := none
  placeholder : Option String := none

/-- The call of `Object.assign` in the constructor: the default `defaultLevel: 2`
overridden by what the configuration sets. -/
def assignDefaults (config : RawConfig) : HeaderConfig :=
  { defaultLevel := config.defaultLevel.getD 2, levels := config.levels,
    placeholder := config.placeholder }

/-- The constructor.  `this._element` is `undefined` when it calls `getTag()`,
which then works on a fresh element. -/
def construct (data : JSVal) (config : RawConfig) (api : Api) (readOnly : Bool) :
    Except Err Header :=
  let settings := assignDefaults config
  match normalizeData settings data with
  | .error e => .error e
  | .ok normalized =>
    let h : Header :=
      { api := api, readOnly := readOnly, settings := settings, data := normalized,
        settingsButtons := [], element := newTag }
    match getTag ICON h with
    | (.error e, _) => .error e
    | (.ok _, h1) => .ok h1

/-- The host attaches the rendered element to the document. -/
def mount (h : Header) : Header := { h with element := { h.element with mounted := true } }

/-- The method `render()`. -/
def render (h : Header) : Element := h.element

/-- The getter `data`. -/
def getData (h : Header) : Except Err HeaderData × Header :=
  let h1 := { h with data := { h.data with text := .str h.element.innerHTML } }
  match currentLevel ICON h1 with
  | .error e => (.error e, h1)
  | .ok current =>
    let h2 := { h1 with data := { h1.data with level := current.level } }
    (.ok h2.data, h2)

/-- The setter `data`. -/
def setData (h : Header) (data : JSVal) : Except Err Unit × Header :=
  match normalizeData h.settings data with
  | .error e => (.error e, h)
  | .ok normalized =>
    let h1 := { h with data := normalized }
    match data.get "level" with
    | .error e => (.error e, h1)
    | .ok level =>
      let step : Except Err Unit × Header :=
        if level.isDefined && h1.element.mounted then
          match getTag ICON h1 with
          | (.error e, h2) => (.error e, h2)
          | (.ok _, h2) => (.ok (), h2)
        else (.ok (), h1)
      match step with
      | (.error e, h2) => (.error e, h2)
      | (.ok _, h2) =>
        match data.get "text" with
        | .error e => (.error e, h2)
        | .ok text =>
          if text.isDefined then
            match (h2.data.text.or (.str "")).toStr with
            | .error e => (.error e, h2)
            | .ok html => (.ok (), { h2 with element := { h2.element with innerHTML := html } })
          else (.ok (), h2)

/-- The body of the `forEach` of `setLevel`: the call
`button.classList.toggle(active, parseInt(button.dataset.level) === level)`. -/
def highlight (active : String) (level : Int) (button : Button) : Button :=
  { button with
    classList := classToggle button.classList active (parseIntChars button.level.data == some level) }

/-- The method `setLevel(level)`. -/
def setLevel (h : Header) (level : Int) : Except Err Unit × Header :=
  match getData ICON h with
  | (.error e, h1) => (.error e, h1)
  | (.ok current, h1) =>
    match setData ICON h1 (.obj [("level", .num level), ("text", current.text)]) with
    | (.error e, h2) => (.error e, h2)
    | (.ok _, h2) =>
      (.ok (), { h2 with settingsButtons :=
        h2.settingsButtons.map (highlight h2.api.settingsButtonActive level) })

/-- The method `merge(data)`. -/
def merge (h : Header) (data : JSVal) : Except Err Unit × Header :=
  match getData ICON h with
  | (.error e, h1) => (.error e, h1)
  | (.ok current, h1) =>
    match data.get "text" with
    | .error e => (.error e, h1)
    | .ok incoming =>
      match current.text.toStr, incoming.toStr with
      | .error e, _ => (.error e, h1)
      | .ok _, .error e => (.error e, h1)
      | .ok left, .ok right =>
        match getData ICON h1 with
        | (.error e, h2) => (.error e, h2)
        | (.ok again, h2) =>
          setData ICON h2 (.obj [("text", .str (left ++ right)), ("level", .num again.level)])

/-- The method `save(toolsContent)`. -/
def save (h : Header) (toolsContent : Element) : Except Err (String × Int) :=
  match currentLevel ICON h with
  | .error e => .error e
  | .ok current => .ok (toolsContent.innerHTML, current.level)

/-! ## Paste -/

/-- The pasted element `event.detail.data`. -/
structure PasteElement where
  tagName : String
  innerHTML : String

/-- The local variable `level` of `onPaste`: it starts as the descriptor of the
default level and becomes a number when the tag is one of `H1`..`H6`. -/
inductive PasteLevel
  | descriptor (l : Level)
  | number (n : Int)

/-- The variable seen as a value. -/
def PasteLevel.toJS : PasteLevel → JSVal
  | .descriptor l => l.toJS
  | .number n => .num n

/-- The test `Math.abs(currLevel - level) < Math.abs(prevLevel - level)`.  A
descriptor converts to `NaN`, and no comparison with `NaN` holds. -/
def closer (level : PasteLevel) (currLevel prevLevel : Int) : Bool :=
  match level with
  | .number k => decide ((currLevel - k).natAbs < (prevLevel - k).natAbs)
  | .descriptor _ => false

/-- The call `levels.reduce(...)` of `onPaste`, with no initial value. -/
def nearestLevel (level : PasteLevel) (levels : List Int) : Except Err Int :=
  match levels with
  | [] => .error .emptyReduce
  | first :: rest =>
    .ok (rest.foldl (fun prevLevel currLevel =>
      if closer level currLevel prevLevel then currLevel else prevLevel) first)

/-- The value of `level` that `onPaste` hands to the setter `data` (lines
359 to 371). -/
def pasteLevel (settings : HeaderConfig) (content : PasteElement) : Except Err JSVal :=
  match getLevel ICON settings settings.defaultLevel with
  | .error e => .error e
  | .ok fallback =>
    let level : PasteLevel :=
      match tags.find? (fun item => content.tagName == hTag item) with
      | some find => if find != 0 then .number find else .descriptor fallback
      | none => .descriptor fallback
    match settings.levels with
    | some configured =>
      match nearestLevel level configured with
      | .error e => .error e
      | .ok l => .ok (.num l)
    | none => .ok level.toJS

/-- The method `onPaste(event)`, on `event.detail.data`. -/
def onPaste (h : Header) (content : PasteElement) : Except Err Unit × Header :=
  match pasteLevel ICON h.settings content with
  | .error e => (.error e, h)
  | .ok level => setData ICON h (.obj [("level", level), ("text", .str content.innerHTML)])

/-! ## Settings -/

/-- The body of the `forEach` of `renderSettings`, run over the catalog: every
control is appended to the holder and pushed on `this.settingsButtons`. -/
def renderButtons : List SubTool → List Button → Header → Except Err (List Button) × Header
  | [], holder, h => (.ok holder, h)
  | level :: rest, holder, h =>
    match currentLevel ICON h with
    | .error e => (.error e, h)
    | .ok current =>
      let classes := [h.api.settingsButton]
      let button : Button :=
        { classList :=
            if current.level == level.level then classAdd classes h.api.settingsButtonActive
            else classes
          innerHTML := level.icon
          level := numberToString level.level }
      renderButtons rest (holder ++ [button])
        { h with settingsButtons := h.settingsButtons ++ [button] }

/-- The method `renderSettings()`: the controls appended to the holder. -/
def renderSettings (h : Header) : Except Err (List Button) × Header :=
  let levels := getSubTools ICON h.settings
  if levels.length ≤ 1 then (.ok [], h) else renderButtons ICON levels [] h

/-! ## Vocabulary of the statements -/

/-- Levels of the catalog `getSubTools(config)`, in its order. -/
def catalogLevels (settings : HeaderConfig) : List Int :=
  (getSubTools ICON settings).map (fun s => s.level)

/-- Reference catalog, after the specification: the six canonical levels when
`levels` is unset; otherwise the canonical levels `1..6` that appear in `levels`,
in ascending order, whatever the order or the repetitions in `levels`. -/
def referenceCatalog (levels : Option (List Int)) : List Int :=
  match levels with
  | none => [1, 2, 3, 4, 5, 6]
  | some configured =>
    (configured.toFinset.filter (fun l => 1 ≤ l ∧ l ≤ 6)).sort (fun a b => a ≤ b)

/-- The value of `v.key` where the read does not throw, `undefined` elsewhere. -/
def JSVal.field (v : JSVal) (key : String) : JSVal :=
  match v.get key with
  | .ok x => x
  | .error _ => .undefined

/-- The conversion `ToString(v)` returns. -/
def JSVal.stringifies (v : JSVal) : Bool :=
  match v.toStr with
  | .ok _ => true
  | .error _ => false

/-- Distance `Math.abs(l - k)` between two levels. -/
def distance (l k : Int) : Nat := (l - k).natAbs

/-- An icon table for the examples: every key is its own icon. -/
def sampleIcons : String → String := fun key => key

/-- An editor API for the examples. -/
def sampleApi : Api :=
  { t := fun key => key, block := "cdx-block", settingsButton := "cdx-settings-button",
    settingsButtonActive := "cdx-settings-button--active" }

/-- A block for the examples: full catalog, level 2, text `hello`, not mounted. -/
def sampleBlock : Header :=
  { api := sampleApi, readOnly := false, settings := { },
    data := { text := .str "hello", level := 2 }, settingsButtons := [],
    element := { newTag with innerHTML := "hello", header := "H2", contentEditable := "true" } }

/-- The reduction step of `onPaste` when the detected level is the number `k`. -/
def nearer (k : Int) (prevLevel currLevel : Int) : Int :=
  if closer (.number k) currLevel prevLevel then currLevel else prevLevel

/-- The view after a write of level `l` and text `s`: a mounted element is
re-tagged by `getTag()`, an element that is not mounted only gets the text. -/
def writtenElement (h : Header) (l : Int) (s : String) : Element :=
  if h.element.mounted then
    { h.element with
      innerHTML := s
      header := hTag l
      contentEditable := if h.readOnly then "false" else "true"
      placeholder := h.api.t (h.settings.placeholder.getD "") }
  else { h.element with innerHTML := s }

/-- A block for the examples: levels 1 and 4 only, default level 4. -/
def restrictedBlock : Header :=
  { sampleBlock with
    settings := { defaultLevel := 4, levels := some [1, 4] }
    data := { text := .str "hello", level := 4 }
    element := { sampleBlock.element with header := "H4" } }

/-- A block for the examples: levels configured as 4 then 2, default level 2. -/
def tiedBlock : Header :=
  { sampleBlock with settings := { levels := some [4, 2] } }

/-! ## Validation -/

/-- The method `String.prototype.trim` on the characters of a string: white
space and line terminators are dropped at both ends. -/
def trimChars (cs : List Char) : List Char :=
  (((cs.dropWhile isStrWhiteSpace).reverse).dropWhile isStrWhiteSpace).reverse

/-- The method `validate(blockData)`: the test `blockData.text.trim() !== ''`.
Reading `trim` throws on a text that is `undefined` or `null`, and calling it
throws on any other text that is not a string. -/
def validate (blockData : JSVal) : Except Err Bool :=
  match blockData.get "text" with
  | .error e => .error e
  | .ok text =>
    match text with
    | .str s => .ok (String.mk (trimChars s.data) != "")
    | .undefined => .error .nullishData
    | .null => .error .nullishData
    | _ => .error .notCallable

/-! ## Vocabulary of the statements on the settings and the view -/

/-- A control is marked active: its class list holds `settingsButtonActive`. -/
def isActive (api : Api) (button : Button) : Bool :=
  button.classList.contains api.settingsButtonActive

/-- The level a control is bound to: `parseInt(button.dataset.level)`. -/
def boundLevel (button : Button) : Option Int := parseIntChars button.level.data

/-- The control that the loop of `renderSettings` builds for a catalog entry
when the current level is `current`. -/
def levelButton (api : Api) (current : Int) (level : SubTool) : Button :=
  { classList :=
      if current == level.level then classAdd [api.settingsButton] api.settingsButtonActive
      else [api.settingsButton]
    innerHTML := level.icon
    level := numberToString level.level }

/-- The catalog entry of a level. -/
def subTool (ICON : String → String) (level : Int) : SubTool :=
  { type := hTag level, level := level, icon := ICON (hTag level) }

/-! ## The view with the host document made explicit -/

/-- The method `getTag()` when the document reads back `dom v` after `v` is
assigned to `innerHTML`. -/
def getTagOn (dom : String → String) (ICON : String → String) (h : Header) :
    Except Err Element × Header :=
  match (h.data.text.or (.str "")).toStr with
  | .error e => (.error e, h)
  | .ok html =>
    let h1 := { h with element := { h.element with innerHTML := dom html } }
    match currentLevel ICON h1 with
    | .error e => (.error e, h1)
    | .ok current =>
      let tag := { h1.element with
        header := current.tag
        contentEditable := if h1.readOnly then "false" else "true"
        placeholder := h1.api.t (h1.settings.placeholder.getD "") }
      (.ok tag, { h1 with element := tag })

/-- The setter `data` when the document reads back `dom v` after `v` is
assigned to `innerHTML`. -/
def setDataOn (dom : String → String) (ICON : String → String) (h : Header) (data : JSVal) :
    Except Err Unit × Header :=
  match normalizeData h.settings data with
  | .error e => (.error e, h)
  | .ok normalized =>
    let h1 := { h with data := normalized }
    match data.get "level" with
    | .error e => (.error e, h1)
    | .ok level =>
      let step : Except Err Unit × Header :=
        if level.isDefined && h1.element.mounted then
          match getTagOn dom ICON h1 with
          | (.error e, h2) => (.error e, h2)
          | (.ok _, h2) => (.ok (), h2)
        else (.ok (), h1)
      match step with
      | (.error e, h2) => (.error e, h2)
      | (.ok _, h2) =>
        match data.get "text" with
        | .error e => (.error e, h2)
        | .ok text =>
          if text.isDefined then
            match (h2.data.text.or (.str "")).toStr with
            | .error e => (.error e, h2)
            | .ok html =>
              (.ok (), { h2 with element := { h2.element with innerHTML := dom html } })
          else (.ok (), h2)

/-- The method `merge(data)` when the document reads back `dom v` after `v` is
assigned to `innerHTML`. -/
def mergeOn (dom : String → String) (ICON : String → String) (h : Header) (data : JSVal) :
    Except Err Unit × Header :=
  match getData ICON h with
  | (.error e, h1) => (.error e, h1)
  | (.ok current, h1) =>
    match data.get "text" with
    | .error e => (.error e, h1)
    | .ok incoming =>
      match current.text.toStr, incoming.toStr with
      | .error e, _ => (.error e, h1)
      | .ok _, .error e => (.error e, h1)
      | .ok left, .ok right =>
        match getData ICON h1 with
        | (.error e, h2) => (.error e, h2)
        | (.ok again, h2) =>
          setDataOn dom ICON h2
            (.obj [("text", .str (left ++ right)), ("level", .num again.level)])

/-- The escape of a text node by the serialisation of HTML fragments: `&`,
the no-break space, `<` and `>` are written as character references.  A string
without `<`, `&`, carriage return and NUL parses to one text node of that very
text, so this is what `innerHTML` reads back once such a string is assigned. -/
def escapeText (s : String) : String :=
  String.mk (s.data.flatMap (fun c =>
    if c == '&' then "&amp;".data
    else if c == Char.ofNat 160 then "&nbsp;".data
    else if c == '<' then "&lt;".data
    else if c == '>' then "&gt;".data
    else [c]))

/-- The view after a write of level `l` and text `s` on the document `dom`. -/
def writtenElementOn (dom : String → String) (h : Header) (l : Int) (s : String) : Element :=
  if h.element.mounted then
    { h.element with
      innerHTML := dom s
      header := hTag l
      contentEditable := if h.readOnly then "false" else "true"
      placeholder := h.api.t (h.settings.placeholder.getD "") }
  else { h.element with innerHTML := dom s }

/-! ## Runs of a block -/

/-- An operation on a constructed block: a data write, `setLevel`, `merge` or
`onPaste`. -/
inductive Op
  | write (data : JSVal)
  | setLevel (level : Int)
  | merge (data : JSVal)
  | onPaste (content : PasteElement)

/-- The operation run on a block. -/
def Op.run (ICON : String → String) : Op → Header → Except Err Unit × Header
  | .write data, h => setData ICON h data
  | .setLevel level, h => HeaderTool.setLevel ICON h level
  | .merge data, h => HeaderTool.merge ICON h data
  | .onPaste content, h => HeaderTool.onPaste ICON h content

/-- The data handed to the setter carries a level: always for `setLevel`,
`merge` and `onPaste`, and for a data write when `data.level !== undefined`. -/
def Op.carriesLevel : Op → Bool
  | .write data => (data.field "level").isDefined
  | _ => true

/-- The states of a block reached from construction by mounting the view and by
successful operations of which each either is performed while the view is
mounted and carries a level, or leaves the current level as it was. -/
inductive SyncRun (ICON : String → String) : Header → Prop
  | constructed (data : JSVal) (config : RawConfig) (api : Api) (readOnly : Bool) (h : Header) :
      construct ICON data config api readOnly = .ok h → SyncRun ICON h
  | mounted (h : Header) : SyncRun ICON h → SyncRun ICON (mount h)
  | synced (h h2 : Header) (op : Op) :
      SyncRun ICON h → h.element.mounted = true → op.carriesLevel = true →
      op.run ICON h = (.ok (), h2) → SyncRun ICON h2
  | still (h h2 : Header) (op : Op) :
      SyncRun ICON h → op.run ICON h = (.ok (), h2) →
      currentLevel ICON h2 = currentLevel ICON h → SyncRun ICON h2

/-- A block for the examples: levels 4 and 5 only, with the default level 2 left
as it is, holding level 4. -/
def strayDefaultBlock : Header :=
  { sampleBlock with
    settings := { levels := some [4, 5] }
    data := { text := .str "hello", level := 4 }
    element := { sampleBlock.element with header := "H4" } }

/-- The view is mounted and carries the tag of the current level:
`dataset.header` equals `currentLevel.tag`. -/
def Tagged (ICON : String → String) (h : Header) : Prop :=
  h.element.mounted = true ∧ ∃ lv, currentLevel ICON h = .ok lv ∧ h.element.header = lv.tag

/-- A block for the examples: the sample block, mounted, after `setLevel(5)`. -/
def leveledBlock : Header := (setLevel sampleIcons (mount sampleBlock) 5).2

/-- A block for the examples: the sample block after `renderSettings()`. -/
def renderedBlock : Header := (renderSettings sampleIcons sampleBlock).2

/-! ## Numbers: rendering and parsing -/

theorem digitValue_digitChar (d : Nat) (hd : d < 10) : digitValue (digitChar d) = some d := by
  interval_cases d <;> rfl

theorem isStrWhiteSpace_digitChar (d : Nat) (hd : d < 10) :
    isStrWhiteSpace (digitChar d) = false := by
  interval_cases d <;> rfl

theorem digitChar_ne_sign (d : Nat) (hd : d < 10) :
    (digitChar d == '-') = false ∧ (digitChar d == '+') = false
      ∧ (digitChar d == 'x') = false ∧ (digitChar d == 'X') = false := by
  interval_cases d <;> decide

theorem leadingDigits_map (ds : List Nat) (hds : ∀ x ∈ ds, x < 10) :
    leadingDigits 10 (ds.map digitChar) = ds := by
  induction ds with
  | nil => rfl
  | cons d ds ih =>
    have hd : d < 10 := hds d (List.mem_cons_self _ _)
    have ht : ∀ x ∈ ds, x < 10 := fun x hx => hds x (List.mem_cons_of_mem _ hx)
    simp [leadingDigits, digitValue_digitChar d hd, hd, ih ht]

/-- Parsing after the sign has been read. -/
theorem parseIntChars_digits (neg : Bool) (d : Nat) (ds : List Nat) (hd : d < 10)
    (hds : ∀ x ∈ ds, x < 10) :
    parseIntChars ((if neg then [ '-'] else []) ++ (d :: ds).map digitChar)
      = some (if neg then - (roundDouble (digitsValue 10 (d :: ds)) : Int)
          else (roundDouble (digitsValue 10 (d :: ds)) : Int)) := by
  have hall : ∀ x ∈ d :: ds, x < 10 := by
    intro x hx
    rcases List.mem_cons.mp hx with h | h
    · exact h ▸ hd
    · exact hds x h
  have hl := leadingDigits_map (d :: ds) hall
  obtain ⟨h1, h2, _, _⟩ := digitChar_ne_sign d hd
  have hw := isStrWhiteSpace_digitChar d hd
  have hm : isStrWhiteSpace '-' = false := rfl
  cases ds with
  | nil =>
    simp only [List.map_cons, List.map_nil] at hl ⊢
    cases neg <;> simp [parseIntChars, List.dropWhile, hw, h1, h2, hl, hm]
  | cons e es =>
    have he : e < 10 := hds e (List.mem_cons_self _ _)
    obtain ⟨_, _, h3, h4⟩ := digitChar_ne_sign e he
    simp only [List.map_cons] at hl ⊢
    cases neg <;> simp [parseIntChars, List.dropWhile, hw, h1, h2, h3, h4, hl, hm]

theorem digitsValue_snoc (R : Nat) (ds : List Nat) (d : Nat) :
    digitsValue R (ds ++ [d]) = digitsValue R ds * R + d := by
  simp [digitsValue, List.foldl_append]

theorem revDigits_spec (fuel : Nat) : ∀ n, n < fuel →
    (∀ d ∈ revDigits fuel n, d < 10) ∧ digitsValue 10 (revDigits fuel n).reverse = n
      ∧ revDigits fuel n ≠ [] := by
  induction fuel with
  | zero => intro n h; omega
  | succ f ih =>
    intro n hn
    by_cases h10 : n < 10
    · simp [revDigits, h10, digitsValue]
    · have hq : n / 10 < f := by omega
      obtain ⟨h1, h2, _⟩ := ih (n / 10) hq
      refine ⟨?_, ?_, ?_⟩
      · intro d hd
        simp only [revDigits, h10, if_false, List.mem_cons] at hd
        rcases hd with h | h
        · omega
        · exact h1 d h
      · simp only [revDigits, h10, if_false, List.reverse_cons, digitsValue_snoc, h2]
        omega
      · simp [revDigits, h10]

/-- The decimal rendering is a non-empty list of digit characters of value `n`. -/
theorem decimal_spec (n : Nat) : ∃ d ds, d < 10 ∧ (∀ x ∈ ds, x < 10)
    ∧ decimal n = (d :: ds).map digitChar ∧ digitsValue 10 (d :: ds) = n := by
  obtain ⟨h1, h2, h3⟩ := revDigits_spec (n + 1) n (Nat.lt_succ_self n)
  have hne : (revDigits (n + 1) n).reverse ≠ [] := by simpa using h3
  obtain ⟨d, ds, hds⟩ := List.exists_cons_of_ne_nil hne
  have hmem : ∀ x ∈ d :: ds, x < 10 := by
    intro x hx
    rw [← hds] at hx
    exact h1 x (List.mem_reverse.mp hx)
  refine ⟨d, ds, hmem d (List.mem_cons_self _ _),
    fun x hx => hmem x (List.mem_cons_of_mem _ hx), ?_, ?_⟩
  · simp [decimal, hds]
  · rw [← hds]; exact h2

theorem roundDouble_of_lt (m : Nat) (hm : m < 2 ^ 53) : roundDouble m = m := by
  simp only [roundDouble, hm, if_true]

theorem shortestDigits_of_lt (m : Nat) (hm : m < 2 ^ 53) : shortestDigits m = m := by
  simp only [shortestDigits, hm, if_true]

theorem parseIntChars_numberToString (n : Int) (hn : n.natAbs < 2 ^ 53) :
    parseIntChars (numberToString n).data = some n := by
  by_cases h0 : n = 0
  · subst h0; rfl
  · obtain ⟨d, ds, hd, hds, hdec, hval⟩ := decimal_spec n.natAbs
    have hfin : ¬ infinite ≤ n.natAbs := by
      have : (2 : Nat) ^ 53 ≤ infinite := by unfold infinite; norm_num
      omega
    have hlt : n.natAbs < 10 ^ 21 := lt_trans hn (by norm_num)
    have hround : roundDouble (digitsValue 10 (d :: ds)) = n.natAbs := by
      rw [hval]; exact roundDouble_of_lt _ hn
    by_cases hneg : n < 0
    · have := parseIntChars_digits true d ds hd hds
      simp only [if_true, List.singleton_append] at this
      simp only [numberToString, h0, hfin, hneg, if_true, if_false, posToString,
        shortestDigits_of_lt _ hn, hlt, hdec, this, hround]
      congr 1; omega
    · have := parseIntChars_digits false d ds hd hds
      simp only [Bool.false_eq_true, if_false, List.nil_append] at this
      simp only [numberToString, h0, hfin, hneg, if_true, if_false, posToString,
        shortestDigits_of_lt _ hn, hlt, hdec, this, hround]
      congr 1; omega

theorem parseInt_num (n : Int) (hn : n.natAbs < 2 ^ 53) :
    parseInt (.num n) = .ok (some n) := by
  simp [parseInt, JSVal.toStr, parseIntChars_numberToString n hn]

/-! ### Doubles: what rounding returns, and printing below `10^21` -/

theorem bitLength_spec (fuel : Nat) : ∀ m, 0 < m → m ≤ fuel →
    2 ^ (bitLength fuel m - 1) ≤ m ∧ m < 2 ^ bitLength fuel m ∧ 1 ≤ bitLength fuel m := by
  induction fuel with
  | zero => intro m h1 h2; omega
  | succ f ih =>
    intro m hm hle
    have hm0 : m ≠ 0 := by omega
    simp only [bitLength, hm0, if_false]
    by_cases h1 : m / 2 = 0
    · have hone : m = 1 := by omega
      subst hone
      cases f with
      | zero => simp [bitLength]
      | succ g => simp [bitLength]
    · have hpos : 0 < m / 2 := Nat.pos_of_ne_zero h1
      obtain ⟨ha, hb, hc⟩ := ih (m / 2) hpos (by omega)
      refine ⟨?_, ?_, by omega⟩
      · have : 1 + bitLength f (m / 2) - 1 = (bitLength f (m / 2) - 1) + 1 := by omega
        rw [this, pow_succ]
        omega
      · rw [Nat.add_comm, pow_succ]
        omega

theorem bitLength_eq (v b : Nat) (hb : 1 ≤ b) (h1 : 2 ^ (b - 1) ≤ v) (h2 : v < 2 ^ b) :
    bitLength v v = b := by
  have hv : 0 < v := lt_of_lt_of_le (Nat.pow_pos (by norm_num)) h1
  obtain ⟨ha, hc, hd⟩ := bitLength_spec v v hv (le_refl v)
  have hlt1 : 2 ^ (bitLength v v - 1) < 2 ^ b := lt_of_le_of_lt ha h2
  have hlt2 : 2 ^ (b - 1) < 2 ^ bitLength v v := lt_of_le_of_lt h1 hc
  have e1 := (Nat.pow_lt_pow_iff_right (by norm_num : 1 < 2)).mp hlt1
  have e2 := (Nat.pow_lt_pow_iff_right (by norm_num : 1 < 2)).mp hlt2
  omega

theorem infinite_eq : infinite = 2 ^ 1024 := by
  unfold infinite
  rw [← pow_add, ← pow_add, ← pow_add]

/-- An integer of 53 significant binary digits is a double. -/
theorem roundDouble_of_exact (q e : Nat) (hq1 : 2 ^ 52 ≤ q) (hq2 : q < 2 ^ 53) (he : 1 ≤ e)
    (hfin : q * 2 ^ e < infinite) : roundDouble (q * 2 ^ e) = q * 2 ^ e := by
  have hP : 0 < 2 ^ e := Nat.pow_pos (by norm_num)
  have hP2 : 2 ≤ 2 ^ e := by
    calc 2 = 2 ^ 1 := by norm_num
      _ ≤ 2 ^ e := Nat.pow_le_pow_right (by norm_num) he
  have hlow : 2 ^ 53 ≤ q * 2 ^ e := by
    calc 2 ^ 53 = 2 ^ 52 * 2 := by norm_num
      _ ≤ q * 2 ^ e := Nat.mul_le_mul hq1 hP2
  have hbl : bitLength (q * 2 ^ e) (q * 2 ^ e) = 53 + e := by
    apply bitLength_eq _ _ (by omega)
    · have : 53 + e - 1 = 52 + e := by omega
      rw [this, pow_add]
      exact Nat.mul_le_mul_right _ hq1
    · rw [pow_add]
      exact Nat.mul_lt_mul_of_pos_right hq2 hP
  have h53 : ¬ q * 2 ^ e < 2 ^ 53 := by omega
  have hinf : ¬ infinite ≤ q * 2 ^ e := by omega
  have hsub : 53 + e - 53 = e := by omega
  have hdiv : q * 2 ^ e / 2 ^ e = q := Nat.mul_div_cancel _ hP
  have hmod : q * 2 ^ e % 2 ^ e = 0 := Nat.mul_mod_left _ _
  have hc1 : ¬ 2 ^ e < 2 * 0 := by omega
  have hc2 : ¬ (2 * 0 = 2 ^ e ∧ q % 2 = 1) := by omega
  simp only [roundDouble, h53, hinf, hbl, hsub, hdiv, hmod, if_false, hc1, hc2, or_self]

theorem roundDouble_infinite : roundDouble infinite = infinite := by
  have h1 : ¬ infinite < 2 ^ 53 := by rw [infinite_eq]; norm_num
  simp only [roundDouble, h1, le_refl, if_true, if_false]

/-- What `roundDouble` returns is a double: rounding it again changes nothing. -/
theorem roundDouble_idem (m : Nat) : roundDouble (roundDouble m) = roundDouble m := by
  by_cases h53 : m < 2 ^ 53
  · have h := roundDouble_of_lt m h53
    rw [h, h]
  · by_cases hinf : infinite ≤ m
    · have h : roundDouble m = infinite := by
        simp only [roundDouble, h53, hinf, if_true, if_false]
      rw [h, roundDouble_infinite]
    · have hm : 0 < m := by
        have : (0 : Nat) < 2 ^ 53 := by norm_num
        omega
      obtain ⟨ha, hb, hc⟩ := bitLength_spec m m hm (le_refl m)
      have hb54 : 54 ≤ bitLength m m := by
        by_contra hlt
        have hle : bitLength m m ≤ 53 := by omega
        have : 2 ^ bitLength m m ≤ 2 ^ 53 := Nat.pow_le_pow_right (by norm_num) hle
        omega
      obtain ⟨e, he⟩ : ∃ e, bitLength m m = 53 + e := ⟨bitLength m m - 53, by omega⟩
      have he1 : 1 ≤ e := by omega
      have hsub : bitLength m m - 53 = e := by omega
      have hP : 0 < 2 ^ e := Nat.pow_pos (by norm_num)
      have hq1 : 2 ^ 52 ≤ m / 2 ^ e := by
        rw [Nat.le_div_iff_mul_le hP, ← pow_add]
        have : 52 + e = bitLength m m - 1 := by omega
        rw [this]; exact ha
      have hq2 : m / 2 ^ e < 2 ^ 53 := by
        apply Nat.div_lt_of_lt_mul
        rw [Nat.mul_comm, ← pow_add, ← he]; exact hb
      have hval : roundDouble m
          = if infinite ≤ (if 2 ^ e < 2 * (m % 2 ^ e) ∨ (2 * (m % 2 ^ e) = 2 ^ e ∧ m / 2 ^ e % 2 = 1)
                then m / 2 ^ e + 1 else m / 2 ^ e) * 2 ^ e then infinite
            else (if 2 ^ e < 2 * (m % 2 ^ e) ∨ (2 * (m % 2 ^ e) = 2 ^ e ∧ m / 2 ^ e % 2 = 1)
                then m / 2 ^ e + 1 else m / 2 ^ e) * 2 ^ e := by
        simp only [roundDouble, h53, hinf, hsub, if_false]
      rw [hval]
      split_ifs with h1 h2 h3
      · exact roundDouble_infinite
      · by_cases hq3 : m / 2 ^ e + 1 < 2 ^ 53
        · exact roundDouble_of_exact _ e (by omega) hq3 he1 (Nat.lt_of_not_le h2)
        · have hq4 : m / 2 ^ e + 1 = 2 ^ 53 := by omega
          have hre : (m / 2 ^ e + 1) * 2 ^ e = 2 ^ 52 * 2 ^ (e + 1) := by
            rw [hq4]; ring
          rw [hre] at h2 ⊢
          exact roundDouble_of_exact _ (e + 1) (le_refl _) (by norm_num) (by omega)
            (Nat.lt_of_not_le h2)
      · exact roundDouble_infinite
      · exact roundDouble_of_exact _ e hq1 hq2 he1 (Nat.lt_of_not_le h3)


theorem revDigits_length (fuel : Nat) : ∀ (n k : Nat), 1 ≤ k → n < 10 ^ k →
    (revDigits fuel n).length ≤ k := by
  induction fuel with
  | zero => intro n k _ _; simp [revDigits]
  | succ f ih =>
    intro n k hk hn
    by_cases h10 : n < 10
    · simp [revDigits, h10, hk]
    · have hk2 : 2 ≤ k := by
        by_contra hlt
        have : k = 1 := by omega
        subst this
        simp at hn
        omega
      have hq : n / 10 < 10 ^ (k - 1) := by
        have hpow : 10 ^ k = 10 ^ (k - 1) * 10 := by
          rw [← pow_succ]; congr 1; omega
        rw [hpow] at hn
        exact Nat.div_lt_of_lt_mul (by rw [Nat.mul_comm]; exact hn)
      have := ih (n / 10) (k - 1) (by omega) hq
      simp only [revDigits, h10, if_false, List.length_cons]
      omega

theorem decimal_length (x : Nat) (hx : x < 10 ^ 21) : (decimal x).length ≤ 21 := by
  simp only [decimal, List.length_map, List.length_reverse]
  exact revDigits_length _ x 21 (by norm_num) hx

theorem shortestAt_spec (x L k v : Nat) (hv : shortestAt x L k = some v) :
    roundDouble v = x
      ∧ (v = x / 10 ^ (L - k) * 10 ^ (L - k) ∨ v = x / 10 ^ (L - k) * 10 ^ (L - k) + 10 ^ (L - k)) := by
  unfold shortestAt at hv
  simp only [] at hv
  by_cases hlo : roundDouble (x / 10 ^ (L - k) * 10 ^ (L - k)) = x
  · by_cases hhi : roundDouble (x / 10 ^ (L - k) * 10 ^ (L - k) + 10 ^ (L - k)) = x
    · simp only [hlo, hhi, beq_self_eq_true, Bool.and_self, if_true] at hv
      split_ifs at hv <;> (cases hv; first | exact ⟨hlo, Or.inl rfl⟩ | exact ⟨hhi, Or.inr rfl⟩)
    · have hb : (roundDouble (x / 10 ^ (L - k) * 10 ^ (L - k) + 10 ^ (L - k)) == x) = false := by
        simpa using hhi
      simp only [hlo, hb, beq_self_eq_true, Bool.and_false, Bool.false_eq_true, if_false,
        if_true] at hv
      cases hv
      exact ⟨hlo, Or.inl rfl⟩
  · have hb : (roundDouble (x / 10 ^ (L - k) * 10 ^ (L - k)) == x) = false := by simpa using hlo
    by_cases hhi : roundDouble (x / 10 ^ (L - k) * 10 ^ (L - k) + 10 ^ (L - k)) = x
    · simp only [hb, hhi, beq_self_eq_true, Bool.false_and, Bool.false_eq_true, if_false,
        if_true] at hv
      cases hv
      exact ⟨hhi, Or.inr rfl⟩
    · have hb2 : (roundDouble (x / 10 ^ (L - k) * 10 ^ (L - k) + 10 ^ (L - k)) == x) = false := by
        simpa using hhi
      simp [hb, hb2] at hv

theorem roundDouble_ten_pow : roundDouble (10 ^ 21) = 10 ^ 21 := by decide

theorem shortestDigits_spec (x : Nat) (hd : roundDouble x = x) (hx : x < 10 ^ 21) :
    roundDouble (shortestDigits x) = x ∧ shortestDigits x < 10 ^ 21 := by
  unfold shortestDigits
  by_cases h53 : x < 2 ^ 53
  · simp only [h53, if_true]; exact ⟨hd, hx⟩
  · simp only [h53, if_false]
    cases hh : ((List.range (decimal x).length).filterMap
        (fun i => shortestAt x (decimal x).length (i + 1))).head? with
    | none => exact ⟨hd, hx⟩
    | some v =>
      simp only [Option.getD_some]
      have hmem : v ∈ (List.range (decimal x).length).filterMap
          (fun i => shortestAt x (decimal x).length (i + 1)) := List.mem_of_mem_head? hh
      obtain ⟨i, hi, hv⟩ := List.mem_filterMap.mp hmem
      obtain ⟨hr, hcase⟩ := shortestAt_spec x _ _ v hv
      refine ⟨hr, ?_⟩
      have hL := decimal_length x hx
      have hj : (decimal x).length - (i + 1) ≤ 20 := by omega
      have hpos : 0 < 10 ^ ((decimal x).length - (i + 1)) := Nat.pow_pos (by norm_num)
      rcases hcase with hlo | hhi
      · rw [hlo]
        exact lt_of_le_of_lt (Nat.div_mul_le_self _ _) hx
      · have hsplit : 10 ^ 21
            = 10 ^ (21 - ((decimal x).length - (i + 1))) * 10 ^ ((decimal x).length - (i + 1)) := by
          rw [← pow_add]; congr 1; omega
        have hq : x / 10 ^ ((decimal x).length - (i + 1))
            < 10 ^ (21 - ((decimal x).length - (i + 1))) := by
          apply Nat.div_lt_of_lt_mul
          rw [Nat.mul_comm, ← hsplit]; exact hx
        have hle : v ≤ 10 ^ 21 := by
          rw [hhi, hsplit, ← Nat.succ_mul]
          exact Nat.mul_le_mul_right _ hq
        have hne : v ≠ 10 ^ 21 := by
          intro he
          rw [he, roundDouble_ten_pow] at hr
          omega
        omega

theorem parseIntChars_numberToString_double (n : Int)
    (hd : roundDouble n.natAbs = n.natAbs) (hn : n.natAbs < 10 ^ 21) :
    parseIntChars (numberToString n).data = some n := by
  by_cases h0 : n = 0
  · subst h0; rfl
  · obtain ⟨hr, hlt⟩ := shortestDigits_spec n.natAbs hd hn
    obtain ⟨d, ds, hd10, hds, hdec, hval⟩ := decimal_spec (shortestDigits n.natAbs)
    have hfin : ¬ infinite ≤ n.natAbs := by
      have : (10 : Nat) ^ 21 ≤ infinite := by unfold infinite; norm_num
      omega
    have hround : roundDouble (digitsValue 10 (d :: ds)) = n.natAbs := by
      rw [hval]; exact hr
    by_cases hneg : n < 0
    · have := parseIntChars_digits true d ds hd10 hds
      simp only [if_true, List.singleton_append] at this
      simp only [numberToString, h0, hfin, hneg, if_true, if_false, posToString, hlt, hdec, this,
        hround]
      congr 1; omega
    · have := parseIntChars_digits false d ds hd10 hds
      simp only [Bool.false_eq_true, if_false, List.nil_append] at this
      simp only [numberToString, h0, hfin, hneg, if_true, if_false, posToString, hlt, hdec, this,
        hround]
      congr 1; omega

theorem parseInt_num_double (n : Int) (hd : roundDouble n.natAbs = n.natAbs)
    (hn : n.natAbs < 10 ^ 21) : parseInt (.num n) = .ok (some n) := by
  simp [parseInt, JSVal.toStr, parseIntChars_numberToString_double n hd hn]


/-- What `parseInt` returns is a double. -/
theorem parseIntChars_double (cs : List Char) (p : Int) (hp : parseIntChars cs = some p) :
    roundDouble p.natAbs = p.natAbs := by
  unfold parseIntChars at hp
  simp only [] at hp
  split at hp
  · cases hp
  · simp only [Option.some.injEq] at hp
    subst hp
    split
    · rw [Int.natAbs_neg, Int.natAbs_ofNat]; exact roundDouble_idem _
    · rw [Int.natAbs_ofNat]; exact roundDouble_idem _

theorem parseInt_double (v : JSVal) (p : Int) (hp : parseInt v = .ok (some p)) :
    roundDouble p.natAbs = p.natAbs := by
  unfold parseInt at hp
  split at hp
  · cases hp
  · simp only [Except.ok.injEq] at hp
    exact parseIntChars_double _ p hp

theorem levelOr_double (p : Option Int) (v : JSVal) (d : Int) (hp : parseInt v = .ok p)
    (hd : roundDouble d.natAbs = d.natAbs) :
    roundDouble (levelOr p d).natAbs = (levelOr p d).natAbs := by
  cases p with
  | none => exact hd
  | some n =>
    simp only [levelOr]
    split
    · exact parseInt_double v n hp
    · exact hd

/-! ## The catalog -/

theorem mem_tags (l : Int) : l ∈ tags ↔ 1 ≤ l ∧ l ≤ 6 := by
  simp only [tags, List.mem_cons, List.mem_singleton, List.not_mem_nil, or_false]
  omega

theorem tags_sorted : List.Sorted (fun a b : Int => a < b) tags := by
  simp [tags, List.Sorted]

theorem filter_tags_eq_sort (configured : List Int) :
    tags.filter (fun l => configured.contains l)
      = (configured.toFinset.filter (fun l => 1 ≤ l ∧ l ≤ 6)).sort (fun a b => a ≤ b) := by
  have hlt : List.Sorted (fun a b : Int => a < b) (tags.filter (fun l => configured.contains l)) :=
    List.Pairwise.filter _ tags_sorted
  apply List.eq_of_perm_of_sorted (r := fun a b : Int => a ≤ b)
  · rw [List.perm_ext_iff_of_nodup hlt.nodup (Finset.sort_nodup _ _)]
    intro l
    have hc : configured.contains l = true ↔ l ∈ configured := by simp
    simp only [List.mem_filter, mem_tags, hc, Finset.mem_sort, Finset.mem_filter,
      List.mem_toFinset]
    tauto
  · exact hlt.imp (fun h => le_of_lt h)
  · exact Finset.sort_sorted _ _

theorem find_map_level (ICON : String → String) (L : List Int) (n : Int) :
    (L.map (fun level => ({ type := hTag level, level := level, icon := ICON (hTag level) } : SubTool))).find?
        (fun item => item.level == n)
      = if n ∈ L then some { type := hTag n, level := n, icon := ICON (hTag n) } else none := by
  induction L with
  | nil => simp
  | cons a L ih =>
    by_cases ha : a = n
    · subst ha; simp [List.find?]
    · have hna : ¬ n = a := fun h => ha h.symm
      have hb : (a == n) = false := by simpa using ha
      simp [List.find?, hna, ih, hb]

theorem mem_catalogLevels (ICON : String → String) (settings : HeaderConfig) (n : Int) :
    n ∈ catalogLevels ICON settings
      ↔ (1 ≤ n ∧ n ≤ 6) ∧ ∀ ls, settings.levels = some ls → n ∈ ls := by
  cases hl : settings.levels with
  | none =>
    simp [catalogLevels, getSubTools, hl, tags]
    omega
  | some ls =>
    simp [catalogLevels, getSubTools, hl, tags]
    intro _
    omega

theorem getLevel_eq (ICON : String → String) (settings : HeaderConfig) (n : Int) :
    getLevel ICON settings n
      = if n ∈ catalogLevels ICON settings
        then .ok { level := n, tag := hTag n, icon := ICON (hTag n) }
        else .error .levelNotFound := by
  unfold getLevel catalogLevels getSubTools
  rw [find_map_level]
  simp only [List.map_map]
  have : ((fun s : SubTool => s.level) ∘ fun level =>
      ({ type := hTag level, level := level, icon := ICON (hTag level) } : SubTool)) = id := rfl
  rw [this, List.map_id]
  split_ifs <;> rfl

theorem str_or_empty (s : String) : (JSVal.str s).or (.str "") = .str s := by
  by_cases h : s = ""
  · subst h; rfl
  · simp [JSVal.or, JSVal.truthy, h]

theorem catalog_bounds (ICON : String → String) (settings : HeaderConfig) (l : Int)
    (h : l ∈ catalogLevels ICON settings) : 1 ≤ l ∧ l ≤ 6 :=
  ((mem_catalogLevels ICON settings l).mp h).1

theorem parseInt_catalog (ICON : String → String) (settings : HeaderConfig) (l : Int)
    (h : l ∈ catalogLevels ICON settings) : parseInt (.num l) = .ok (some l) := by
  have hb := catalog_bounds ICON settings l h
  apply parseInt_num
  have : l.natAbs ≤ 6 := by omega
  calc l.natAbs ≤ 6 := this
    _ < 2 ^ 53 := by norm_num

/-- Normalising a record that carries a catalog level and a string text. -/
theorem normalizeData_record (ICON : String → String) (settings : HeaderConfig)
    (fields : List (String × JSVal)) (l : Int) (s : String)
    (hl : fields.lookup "level" = some (.num l)) (ht : fields.lookup "text" = some (.str s))
    (hcat : l ∈ catalogLevels ICON settings) :
    normalizeData settings (.obj fields) = .ok { text := .str s, level := l } := by
  have hb := catalog_bounds ICON settings l hcat
  have h0 : (l != 0) = true := by
    simp only [bne_iff_ne, ne_eq]; omega
  simp [normalizeData, JSVal.typeof, JSVal.get, hl, ht, parseInt_catalog ICON settings l hcat,
    str_or_empty, levelOr, h0]

theorem setData_record (ICON : String → String) (h : Header)
    (fields : List (String × JSVal)) (l : Int) (s : String)
    (hl : fields.lookup "level" = some (.num l)) (ht : fields.lookup "text" = some (.str s))
    (hcat : l ∈ catalogLevels ICON h.settings) :
    setData ICON h (.obj fields)
      = (.ok (), { h with data := { text := .str s, level := l }
                          element := writtenElement h l s }) := by
  have hb := catalog_bounds ICON h.settings l hcat
  have h0 : (l != 0) = true := by
    simp only [bne_iff_ne, ne_eq]; omega
  have hn := normalizeData_record ICON h.settings fields l s hl ht hcat
  cases hm : h.element.mounted
  · simp [setData, hn, JSVal.get, hl, ht, JSVal.isDefined, hm, str_or_empty, JSVal.toStr,
      writtenElement]
  · simp [setData, hn, JSVal.get, hl, ht, JSVal.isDefined, hm, str_or_empty, JSVal.toStr,
      writtenElement, getTag, currentLevel, h0, getLevel_eq, hcat]

/-! ## Reading the current level and the data -/

theorem writtenElement_innerHTML (h : Header) (l : Int) (s : String) :
    (writtenElement h l s).innerHTML = s := by
  unfold writtenElement
  split_ifs <;> rfl

theorem currentLevel_level (ICON : String → String) (h : Header) (lv : Level)
    (hcur : currentLevel ICON h = .ok lv) :
    lv.level ∈ catalogLevels ICON h.settings
      ∧ lv.level = (if h.data.level != 0 then h.data.level else h.settings.defaultLevel) := by
  rw [currentLevel, getLevel_eq] at hcur
  by_cases hmem : (if h.data.level != 0 then h.data.level else h.settings.defaultLevel)
      ∈ catalogLevels ICON h.settings
  · rw [if_pos hmem] at hcur
    cases hcur
    exact ⟨hmem, rfl⟩
  · rw [if_neg hmem] at hcur
    cases hcur

theorem currentLevel_of_mem (ICON : String → String) (h : Header)
    (hcat : h.data.level ∈ catalogLevels ICON h.settings) :
    currentLevel ICON h
      = .ok { level := h.data.level, tag := hTag h.data.level, icon := ICON (hTag h.data.level) } := by
  have hb := catalog_bounds ICON h.settings _ hcat
  have h0 : (h.data.level != 0) = true := by
    simp only [bne_iff_ne, ne_eq]; omega
  simp [currentLevel, h0, getLevel_eq, hcat]

/-- Reading `data` when the current level resolves. -/
theorem getData_ok (ICON : String → String) (h : Header) (lv : Level)
    (hcur : currentLevel ICON h = .ok lv) :
    getData ICON h
      = (.ok { text := .str h.element.innerHTML, level := lv.level },
          { h with data := { text := .str h.element.innerHTML, level := lv.level } }) := by
  have hc : currentLevel ICON { h with data := { h.data with text := .str h.element.innerHTML } }
      = .ok lv := hcur
  simp only [getData, hc]

/-! ## The reduction of `onPaste` -/

theorem foldl_nearer (k : Int) : ∀ (rest : List Int) (acc : Int) (pre mid : List Int),
    (∀ m ∈ pre, distance acc k < distance m k) → (∀ m ∈ mid, distance acc k ≤ distance m k) →
    ∃ pre2 post, pre ++ acc :: (mid ++ rest) = pre2 ++ rest.foldl (nearer k) acc :: post
      ∧ (∀ m ∈ pre2, distance (rest.foldl (nearer k) acc) k < distance m k)
      ∧ (∀ m ∈ post, distance (rest.foldl (nearer k) acc) k ≤ distance m k) := by
  intro rest
  induction rest with
  | nil =>
    intro acc pre mid hp hm
    exact ⟨pre, mid, by simp, hp, hm⟩
  | cons c rest ih =>
    intro acc pre mid hp hm
    by_cases hc : distance c k < distance acc k
    · have hstep : nearer k acc c = c := by
        simp only [nearer, closer, distance] at hc ⊢
        simp [hc]
      obtain ⟨pre2, post, heq, h1, h2⟩ := ih c (pre ++ acc :: mid) [] (by
        intro m hmem
        rcases List.mem_append.mp hmem with h | h
        · exact lt_trans hc (hp m h)
        · rcases List.mem_cons.mp h with h | h
          · exact h ▸ hc
          · exact lt_of_lt_of_le hc (hm m h)) (by simp)
      refine ⟨pre2, post, ?_, ?_, ?_⟩
      · simp only [List.foldl_cons, hstep]
        rw [← heq]; simp
      · simpa only [List.foldl_cons, hstep] using h1
      · simpa only [List.foldl_cons, hstep] using h2
    · have hstep : nearer k acc c = acc := by
        simp only [nearer, closer, distance] at hc ⊢
        simp [hc]
      obtain ⟨pre2, post, heq, h1, h2⟩ := ih acc pre (mid ++ [c]) hp (by
        intro m hmem
        rcases List.mem_append.mp hmem with h | h
        · exact hm m h
        · have : m = c := by simpa using h
          subst this; exact not_lt.mp hc)
      refine ⟨pre2, post, ?_, ?_, ?_⟩
      · simp only [List.foldl_cons, hstep]
        rw [← heq]; simp
      · simpa only [List.foldl_cons, hstep] using h1
      · simpa only [List.foldl_cons, hstep] using h2

theorem nearestLevel_number (k : Int) (first : Int) (rest : List Int) :
    ∃ l pre post, nearestLevel (.number k) (first :: rest) = .ok l
      ∧ first :: rest = pre ++ l :: post
      ∧ (∀ m ∈ pre, distance l k < distance m k)
      ∧ (∀ m ∈ post, distance l k ≤ distance m k) := by
  obtain ⟨pre, post, heq, h1, h2⟩ := foldl_nearer k rest first [] [] (by simp) (by simp)
  exact ⟨_, pre, post, rfl, by simpa using heq, h1, h2⟩

theorem find_tag (k : Int) (hk : 1 ≤ k ∧ k ≤ 6) :
    tags.find? (fun item => hTag k == hTag item) = some k := by
  obtain ⟨h1, h2⟩ := hk
  interval_cases k <;> rfl

/-! ## Normalisation -/

/-- What `normalizeData` computes away from `null`. -/
theorem normalizeData_eq (settings : HeaderConfig) (x : JSVal) (hx : x ≠ .null) :
    normalizeData settings x
      = match parseInt (x.field "level") with
        | .error e => .error e
        | .ok p => .ok { text := (x.field "text").or (.str ""),
                         level := levelOr p settings.defaultLevel } := by
  cases x with
  | null => exact absurd rfl hx
  | obj fields => rfl
  | _ => rfl

theorem or_or_empty (v : JSVal) : (v.or (.str "")).or (.str "") = v.or (.str "") := by
  have he : (JSVal.str "").truthy = false := rfl
  unfold JSVal.or
  by_cases h : v.truthy = true
  · simp only [h, if_true]
  · simp only [h, he, if_false, Bool.false_eq_true]

theorem levelOr_eq_zero (p : Option Int) (d : Int) (h : levelOr p d = 0) : d = 0 := by
  unfold levelOr at h
  split at h
  · split_ifs at h with hn
    · simp at hn; exact absurd h hn
    · exact h
  · exact h

theorem levelOr_self (p : Option Int) (d : Int) :
    levelOr (some (levelOr p d)) d = levelOr p d := by
  by_cases h : levelOr p d = 0
  · have hd := levelOr_eq_zero p d h
    rw [h, hd]; rfl
  · have hb : (levelOr p d != 0) = true := by simpa using h
    show (if (levelOr p d != 0) = true then levelOr p d else d) = levelOr p d
    rw [if_pos hb]

theorem parseInt_of_stringifies (v : JSVal) (hs : v.stringifies = true) :
    ∃ p, parseInt v = .ok p := by
  unfold JSVal.stringifies at hs
  unfold parseInt
  cases hv : v.toStr with
  | error e => rw [hv] at hs; cases hs
  | ok s => exact ⟨_, rfl⟩

/-! ## Claims -/

/-- Claim C1: `getSubTools(config)` is the reference catalog.  Its entries are the
descriptors (type `H` followed by the level, the level, the icon of that key) of
the levels of `referenceCatalog`: all six levels in order when `levels` is
unset, otherwise the levels of `1..6` that occur in `levels`.  The levels are
strictly ascending, whatever the order or the repetitions in `levels`. -/
theorem getSubTools_eq_referenceCatalog (ICON : String → String) (config : HeaderConfig) :
    getSubTools ICON config
        = (referenceCatalog config.levels).map
            (fun l => { type := hTag l, level := l, icon := ICON (hTag l) })
      ∧ catalogLevels ICON { config with levels := none } = [1, 2, 3, 4, 5, 6]
      ∧ List.Sorted (fun a b : Int => a < b) (catalogLevels ICON config)
      ∧ ∀ l, l ∈ catalogLevels ICON config
          ↔ (1 ≤ l ∧ l ≤ 6) ∧ ∀ ls, config.levels = some ls → l ∈ ls := by
  refine ⟨?_, rfl, ?_, mem_catalogLevels ICON config⟩
  · cases hl : config.levels with
    | none => simp [getSubTools, referenceCatalog, hl, tags]
    | some configured => simp only [getSubTools, referenceCatalog, hl, filter_tags_eq_sort]
  · have hmap : catalogLevels ICON config
        = match config.levels with
          | some configured => tags.filter (fun l => configured.contains l)
          | none => tags := by
      simp only [catalogLevels, getSubTools, List.map_map]
      exact List.map_id _
    rw [hmap]
    cases config.levels with
    | none => exact tags_sorted
    | some configured => exact List.Pairwise.filter _ tags_sorted

/-- The example of the specification for the catalog: levels configured as 4
then 2 give the catalog 2 then 4. -/
theorem getSubTools_example (ICON : String → String) :
    catalogLevels ICON { levels := some [4, 2] } = [2, 4] := rfl

/-- Claim C2: with a non-empty `config.levels`, a default level in the catalog and a
pasted element of tag `Hk` with `k` in `1..6`, the level `onPaste` writes is a
member `l` of `config.levels` at the least distance from `k`, and every level
configured before it is strictly farther from `k`; when `l` is in the catalog
the write succeeds and the block holds `l`. -/
theorem onPaste_nearest (ICON : String → String) (h : Header) (ls : List Int) (k : Int)
    (content : PasteElement)
    (hls : h.settings.levels = some ls) (hne : ls ≠ [])
    (hdef : h.settings.defaultLevel ∈ catalogLevels ICON h.settings)
    (hk : 1 ≤ k ∧ k ≤ 6) (htag : content.tagName = hTag k) :
    ∃ l pre post,
      pasteLevel ICON h.settings content = .ok (.num l)
      ∧ onPaste ICON h content
          = setData ICON h (.obj [("level", .num l), ("text", .str content.innerHTML)])
      ∧ ls = pre ++ l :: post
      ∧ (∀ m ∈ pre, distance l k < distance m k)
      ∧ (∀ m ∈ ls, distance l k ≤ distance m k)
      ∧ (l ∈ catalogLevels ICON h.settings →
          (onPaste ICON h content).1 = .ok () ∧ (onPaste ICON h content).2.data.level = l) := by
  obtain ⟨first, rest, rfl⟩ := List.exists_cons_of_ne_nil hne
  obtain ⟨l, pre, post, hn, heq, h1, h2⟩ := nearestLevel_number k first rest
  have hk0 : (k != 0) = true := by
    simp only [bne_iff_ne, ne_eq]; omega
  have hp : pasteLevel ICON h.settings content = .ok (.num l) := by
    simp [pasteLevel, getLevel_eq, hdef, htag, find_tag k hk, hk0, hls, hn]
  have hw : onPaste ICON h content
      = setData ICON h (.obj [("level", .num l), ("text", .str content.innerHTML)]) := by
    simp [onPaste, hp]
  refine ⟨l, pre, post, hp, hw, heq, h1, ?_, ?_⟩
  · intro m hm
    rw [heq] at hm
    rcases List.mem_append.mp hm with hm | hm
    · exact le_of_lt (h1 m hm)
    · rcases List.mem_cons.mp hm with hm | hm
      · exact hm ▸ le_refl _
      · exact h2 m hm
  · intro hcat
    rw [hw, setData_record ICON h _ l content.innerHTML (by simp [List.lookup])
      (by simp [List.lookup]) hcat]
    exact ⟨rfl, rfl⟩

/-- Witness of claim C2: an `H3` element pasted into the block whose levels are
configured as 4 then 2. -/
theorem onPaste_nearest_witness :
    tiedBlock.settings.levels = some [4, 2] ∧ [4, 2] ≠ ([] : List Int)
      ∧ tiedBlock.settings.defaultLevel ∈ catalogLevels sampleIcons tiedBlock.settings
      ∧ ((1 : Int) ≤ 3 ∧ (3 : Int) ≤ 6)
      ∧ (PasteElement.mk "H3" "pasted").tagName = hTag 3
      ∧ ∃ l pre post,
          pasteLevel sampleIcons tiedBlock.settings (PasteElement.mk "H3" "pasted") = .ok (.num l)
          ∧ onPaste sampleIcons tiedBlock (PasteElement.mk "H3" "pasted")
              = setData sampleIcons tiedBlock (.obj [("level", .num l), ("text", .str "pasted")])
          ∧ [4, 2] = pre ++ l :: post
          ∧ (∀ m ∈ pre, distance l 3 < distance m 3)
          ∧ (∀ m ∈ [4, 2], distance l 3 ≤ distance m 3)
          ∧ (l ∈ catalogLevels sampleIcons tiedBlock.settings →
              (onPaste sampleIcons tiedBlock (PasteElement.mk "H3" "pasted")).1 = .ok ()
                ∧ (onPaste sampleIcons tiedBlock (PasteElement.mk "H3" "pasted")).2.data.level
                    = l) :=
  ⟨rfl, by decide, by decide, by decide, rfl,
    onPaste_nearest sampleIcons tiedBlock [4, 2] 3 (PasteElement.mk "H3" "pasted") rfl
      (by decide) (by decide) (by decide) rfl⟩

/-- The examples of the specification for the nearest level: `H3` gives 2 under
levels 1, 2 and 4 under levels 4, 5; under levels 4, 2 it gives 4 and under
levels 2, 4 it gives 2. -/
theorem pasteLevel_examples (ICON : String → String) :
    pasteLevel ICON { levels := some [1, 2] } (PasteElement.mk "H3" "") = .ok (.num 2)
      ∧ pasteLevel ICON { defaultLevel := 4, levels := some [4, 5] } (PasteElement.mk "H3" "")
          = .ok (.num 4)
      ∧ pasteLevel ICON { levels := some [4, 2] } (PasteElement.mk "H3" "") = .ok (.num 4)
      ∧ pasteLevel ICON { levels := some [2, 4] } (PasteElement.mk "H3" "") = .ok (.num 2) :=
  ⟨rfl, rfl, rfl, rfl⟩

/-- Claim C3: with `config.levels` unset (and a default level that is a heading
level `1..6`), pasting an element of tag `Hk`, `k` in `1..6`, with inner content
`s` succeeds and leaves the block with level `k` and text `s`, in the view and
in what a read of `data` returns. -/
theorem onPaste_unrestricted (ICON : String → String) (h : Header) (k : Int) (s : String)
    (hlevels : h.settings.levels = none)
    (hdef : 1 ≤ h.settings.defaultLevel ∧ h.settings.defaultLevel ≤ 6)
    (hk : 1 ≤ k ∧ k ≤ 6) :
    (onPaste ICON h { tagName := hTag k, innerHTML := s }).1 = .ok ()
      ∧ (onPaste ICON h { tagName := hTag k, innerHTML := s }).2.data.level = k
      ∧ (onPaste ICON h { tagName := hTag k, innerHTML := s }).2.element.innerHTML = s
      ∧ (getData ICON (onPaste ICON h { tagName := hTag k, innerHTML := s }).2).1
          = .ok { text := .str s, level := k } := by
  have hd : h.settings.defaultLevel ∈ catalogLevels ICON h.settings := by
    rw [mem_catalogLevels]; exact ⟨hdef, by simp [hlevels]⟩
  have hkc : k ∈ catalogLevels ICON h.settings := by
    rw [mem_catalogLevels]; exact ⟨hk, by simp [hlevels]⟩
  have hk0 : (k != 0) = true := by
    simp only [bne_iff_ne, ne_eq]; omega
  have hp : pasteLevel ICON h.settings { tagName := hTag k, innerHTML := s } = .ok (.num k) := by
    simp [pasteLevel, getLevel_eq, hd, find_tag k hk, hk0, hlevels, PasteLevel.toJS]
  have hw : onPaste ICON h { tagName := hTag k, innerHTML := s }
      = (.ok (), { h with data := { text := .str s, level := k }
                          element := writtenElement h k s }) := by
    simp only [onPaste, hp]
    exact setData_record ICON h _ k s (by simp [List.lookup]) (by simp [List.lookup]) hkc
  have hg := getData_ok ICON
    { h with data := { text := .str s, level := k }, element := writtenElement h k s } _
    (currentLevel_of_mem ICON
      { h with data := { text := .str s, level := k }, element := writtenElement h k s } hkc)
  rw [hw]
  refine ⟨rfl, rfl, writtenElement_innerHTML h k s, ?_⟩
  simp only [hg, writtenElement_innerHTML]

/-- Witness of claim C3: pasting `H3` into the sample block yields level 3. -/
theorem onPaste_unrestricted_witness :
    sampleBlock.settings.levels = none
      ∧ (1 ≤ sampleBlock.settings.defaultLevel ∧ sampleBlock.settings.defaultLevel ≤ 6)
      ∧ ((1 : Int) ≤ 3 ∧ (3 : Int) ≤ 6)
      ∧ (onPaste sampleIcons sampleBlock { tagName := hTag 3, innerHTML := "pasted" }).1 = .ok ()
      ∧ (onPaste sampleIcons sampleBlock { tagName := hTag 3, innerHTML := "pasted" }).2.data.level
          = 3
      ∧ (onPaste sampleIcons sampleBlock
          { tagName := hTag 3, innerHTML := "pasted" }).2.element.innerHTML = "pasted"
      ∧ (getData sampleIcons (onPaste sampleIcons sampleBlock
          { tagName := hTag 3, innerHTML := "pasted" }).2).1
          = .ok { text := .str "pasted", level := 3 } :=
  ⟨rfl, by decide, by decide,
    onPaste_unrestricted sampleIcons sampleBlock 3 "pasted" rfl (by decide) (by decide)⟩

/-- When the detected level is still the descriptor, the reduction keeps the
first configured level. -/
theorem nearestLevel_descriptor (d : Level) (first : Int) (rest : List Int) :
    nearestLevel (.descriptor d) (first :: rest) = .ok first := by
  have hfold : ∀ (l : List Int) (acc : Int),
      l.foldl (fun prevLevel currLevel =>
        if closer (.descriptor d) currLevel prevLevel then currLevel else prevLevel) acc = acc := by
    intro l
    induction l with
    | nil => intro acc; rfl
    | cons c l ih => intro acc; simp [closer, ih]
  simp only [nearestLevel, hfold]

/-- Claim C4, the code at the failing input: with levels 1 and 4 configured and
default level 4, pasting an element whose tag is not a heading writes level 1,
the first configured level, and not the level 4 nearest to the default. -/
theorem onPaste_other_tag_takes_first :
    pasteLevel sampleIcons restrictedBlock.settings { tagName := "P", innerHTML := "text" }
        = .ok (.num 1)
      ∧ (onPaste sampleIcons restrictedBlock { tagName := "P", innerHTML := "text" }).1 = .ok ()
      ∧ (onPaste sampleIcons restrictedBlock { tagName := "P", innerHTML := "text" }).2.data.level
          = 1 :=
  ⟨rfl, rfl, rfl⟩

/-- Claim C5, the code at the failing input: `normalizeData(null)` throws.  The
guard `typeof data !== 'object'` lets `null` through, and the read of
`data.text` fails. -/
theorem normalizeData_null_throws (settings : HeaderConfig) :
    normalizeData settings .null = .error .nullishData := rfl

/-- Counterexample to claim C6: the level string `1000000000000000000000`
normalises to the number `10^21`, which prints as `1e+21` and normalises
again to level 1. -/
theorem normalizeData_not_idempotent :
    (normalizeData { } (.obj [("level", .str "1000000000000000000000")])).map (fun r => r.level)
        = .ok (10 ^ 21)
      ∧ ((normalizeData { } (.obj [("level", .str "1000000000000000000000")])).bind
          (fun r => normalizeData { } r.toJS)).map (fun r => r.level) = .ok 1 :=
  ⟨rfl, rfl⟩

/-- Claim C6, amended: under a configuration whose `defaultLevel` is a number of
the runtime, a double, when `normalizeData(x)` returns a record `r` whose level
has a magnitude below `10^21`, normalising `r` again returns `r`, text and
level alike. -/
theorem normalizeData_idempotent (settings : HeaderConfig) (x : JSVal) (r : HeaderData)
    (hdef : roundDouble settings.defaultLevel.natAbs = settings.defaultLevel.natAbs)
    (hr : normalizeData settings x = .ok r) (hlt : r.level.natAbs < 10 ^ 21) :
    normalizeData settings r.toJS = .ok r := by
  have hx : x ≠ .null := by
    rintro rfl
    rw [show normalizeData settings .null = .error .nullishData from rfl] at hr
    cases hr
  rw [normalizeData_eq settings x hx] at hr
  cases hp : parseInt (x.field "level") with
  | error e => rw [hp] at hr; cases hr
  | ok p =>
    rw [hp] at hr
    simp only [Except.ok.injEq] at hr
    subst hr
    rw [normalizeData_eq _ _ (by simp [HeaderData.toJS])]
    have hf1 : ∀ d : HeaderData, d.toJS.field "level" = .num d.level := fun _ => rfl
    have hf2 : ∀ d : HeaderData, d.toJS.field "text" = d.text := fun _ => rfl
    rw [hf1, hf2, parseInt_num_double _ (levelOr_double p _ _ hp hdef) hlt]
    simp only [or_or_empty, levelOr_self]

/-- Witness of claim C6: a record with text `Title` and level string `3`, under
the default level 2. -/
theorem normalizeData_idempotent_witness :
    roundDouble (2 : Int).natAbs = (2 : Int).natAbs
      ∧ normalizeData { } (.obj [("text", .str "Title"), ("level", .str "3")])
        = .ok { text := .str "Title", level := 3 }
      ∧ (3 : Int).natAbs < 10 ^ 21
      ∧ normalizeData { } (HeaderData.toJS { text := .str "Title", level := 3 })
          = .ok { text := .str "Title", level := 3 } :=
  ⟨rfl, rfl, by decide,
    normalizeData_idempotent { } (.obj [("text", .str "Title"), ("level", .str "3")])
      { text := .str "Title", level := 3 } rfl rfl (by decide)⟩

/-- The examples of the rounding of `parseInt`: 21 nines read as `10^21`,
`2^53 + 1` reads as `2^53`, and `2^64` prints with the shortest digits. -/
theorem parseInt_rounding_examples :
    parseIntChars "999999999999999999999".data = some (10 ^ 21)
      ∧ parseIntChars "9007199254740993".data = some 9007199254740992
      ∧ numberToString (2 ^ 64) = "18446744073709552000"
      ∧ (normalizeData { } (.obj [("level", .str "999999999999999999999")])).map (fun r => r.level)
          = .ok (10 ^ 21) :=
  ⟨rfl, rfl, rfl, rfl⟩

/-- Counterexample to claim C7: a record whose text is the number 42 normalises
to a record whose text is that number, not a string. -/
theorem normalizeData_text_number :
    (normalizeData { } (.obj [("text", .num 42)])).map (fun r => r.text.isString) = .ok false
      ∧ (normalizeData { } (.obj [("text", .num 42)])).map (fun r => r.text.truthy) = .ok true :=
  ⟨rfl, rfl⟩

/-- Claim C7, amended: for an input other than `null` whose level converts to a
string and whose text is a string or is falsy (missing included),
`normalizeData` returns a record whose text is a string, the empty string when
the input text is falsy. -/
theorem normalizeData_text_string (settings : HeaderConfig) (x : JSVal)
    (hx : x ≠ .null) (hs : (x.field "level").stringifies = true)
    (ht : (x.field "text").isString = true ∨ (x.field "text").truthy = false) :
    ∃ r, normalizeData settings x = .ok r ∧ r.text.isString = true
      ∧ ((x.field "text").truthy = false → r.text = .str "") := by
  obtain ⟨p, hp⟩ := parseInt_of_stringifies _ hs
  rw [normalizeData_eq settings x hx, hp]
  refine ⟨_, rfl, ?_, ?_⟩
  · show ((x.field "text").or (.str "")).isString = true
    unfold JSVal.or
    rcases ht with ht | ht
    · split_ifs
      · exact ht
      · rfl
    · simp only [ht, Bool.false_eq_true, if_false]; rfl
  · intro hf
    show (x.field "text").or (.str "") = .str ""
    simp only [JSVal.or, hf, Bool.false_eq_true, if_false]

/-- Witness of claim C7: a record with a level and no text. -/
theorem normalizeData_text_string_witness :
    JSVal.obj [("level", .num 3)] ≠ .null
      ∧ ((JSVal.obj [("level", .num 3)]).field "level").stringifies = true
      ∧ (((JSVal.obj [("level", .num 3)]).field "text").isString = true
          ∨ ((JSVal.obj [("level", .num 3)]).field "text").truthy = false)
      ∧ ∃ r, normalizeData { } (.obj [("level", .num 3)]) = .ok r ∧ r.text.isString = true
          ∧ (((JSVal.obj [("level", .num 3)]).field "text").truthy = false → r.text = .str "") :=
  ⟨by simp, rfl, Or.inr rfl,
    normalizeData_text_string { } (.obj [("level", .num 3)]) (by simp) rfl (Or.inr rfl)⟩

/-- Counterexample to claim C8: level 9 is stored under the full catalog, and
level 3 is stored under levels 1 and 2; neither is in the catalog. -/
theorem normalizeData_level_outside_catalog :
    (normalizeData { } (.obj [("level", .num 9)])).map (fun r => r.level) = .ok 9
      ∧ 9 ∉ catalogLevels sampleIcons { }
      ∧ (normalizeData { levels := some [1, 2] } (.obj [("level", .num 3)])).map (fun r => r.level)
          = .ok 3
      ∧ 3 ∉ catalogLevels sampleIcons { levels := some [1, 2] } :=
  ⟨rfl, by decide, rfl, by decide⟩

/-- Claim C8, amended: for an input other than `null` whose level converts to a
string, the level held after normalisation is the integer `parseInt` reads from
the input level when that is not zero, whether or not it is in the catalog, and
`defaultLevel` when the level is missing, unparseable or zero; so it is in the
catalog exactly when the parsed level is, or when the fallback applies and
`defaultLevel` is in the catalog. -/
theorem normalizeData_level (ICON : String → String) (settings : HeaderConfig) (x : JSVal)
    (hx : x ≠ .null) (hs : (x.field "level").stringifies = true) :
    ∃ r p, normalizeData settings x = .ok r ∧ parseInt (x.field "level") = .ok p
      ∧ (∀ n, p = some n → n ≠ 0 → r.level = n)
      ∧ (p = none ∨ p = some 0 → r.level = settings.defaultLevel)
      ∧ (x.field "level" = .undefined → r.level = settings.defaultLevel)
      ∧ (r.level ∈ catalogLevels ICON settings ↔
          (∃ n, p = some n ∧ n ∈ catalogLevels ICON settings)
            ∨ ((p = none ∨ p = some 0) ∧ settings.defaultLevel ∈ catalogLevels ICON settings)) := by
  obtain ⟨p, hp⟩ := parseInt_of_stringifies _ hs
  rw [normalizeData_eq settings x hx, hp]
  have h0 : (0 : Int) ∉ catalogLevels ICON settings := by
    intro h; have := (mem_catalogLevels ICON settings 0).mp h; omega
  refine ⟨_, p, rfl, rfl, ?_, ?_, ?_, ?_⟩
  · intro n hn hn0
    subst hn
    simp [levelOr, hn0]
  · rintro (h | h) <;> subst h <;> rfl
  · intro hu
    rw [hu] at hp
    have : p = none := by
      have h2 : parseInt .undefined = .ok none := rfl
      rw [h2] at hp; cases hp; rfl
    subst this; rfl
  · show levelOr p settings.defaultLevel ∈ catalogLevels ICON settings ↔ _
    cases p with
    | none => simp [levelOr]
    | some n =>
      by_cases hn : n = 0
      · subst hn
        simp [levelOr, h0]
      · simp [levelOr, hn]

/-- Witness of claim C8: a record with level 9 under the full catalog. -/
theorem normalizeData_level_witness :
    JSVal.obj [("level", .num 9)] ≠ .null
      ∧ ((JSVal.obj [("level", .num 9)]).field "level").stringifies = true
      ∧ ∃ r p, normalizeData { } (.obj [("level", .num 9)]) = .ok r
          ∧ parseInt ((JSVal.obj [("level", .num 9)]).field "level") = .ok p
          ∧ (∀ n, p = some n → n ≠ 0 → r.level = n)
          ∧ (p = none ∨ p = some 0 → r.level = ({ } : HeaderConfig).defaultLevel)
          ∧ ((JSVal.obj [("level", .num 9)]).field "level" = .undefined
              → r.level = ({ } : HeaderConfig).defaultLevel)
          ∧ (r.level ∈ catalogLevels sampleIcons { } ↔
              (∃ n, p = some n ∧ n ∈ catalogLevels sampleIcons { })
                ∨ ((p = none ∨ p = some 0)
                    ∧ ({ } : HeaderConfig).defaultLevel ∈ catalogLevels sampleIcons { })) :=
  ⟨by simp, rfl, normalizeData_level sampleIcons { } (.obj [("level", .num 9)]) (by simp) rfl⟩

/-- Claim C9: in a block whose current level resolves, mounted or not, with view
text `t`, `setLevel(n)` for a level `n` of the catalog succeeds and a read of
`data` then returns level `n` and text `t`. -/
theorem setLevel_then_data (ICON : String → String) (h : Header) (n : Int) (lv : Level)
    (hcur : currentLevel ICON h = .ok lv) (hn : n ∈ catalogLevels ICON h.settings) :
    (setLevel ICON h n).1 = .ok ()
      ∧ (getData ICON (setLevel ICON h n).2).1
          = .ok { text := .str h.element.innerHTML, level := n } := by
  have hset := setData_record ICON
    { h with data := { text := .str h.element.innerHTML, level := lv.level } }
    [("level", .num n), ("text", .str h.element.innerHTML)] n h.element.innerHTML
    (by simp [List.lookup]) (by simp [List.lookup]) hn
  have hs : setLevel ICON h n
      = (.ok (), { h with
          data := { text := .str h.element.innerHTML, level := n }
          element := writtenElement h n h.element.innerHTML
          settingsButtons := h.settingsButtons.map (highlight h.api.settingsButtonActive n) }) := by
    simp only [setLevel, getData_ok ICON h lv hcur, hset]
    rfl
  have hg := getData_ok ICON
    { h with
      data := { text := .str h.element.innerHTML, level := n }
      element := writtenElement h n h.element.innerHTML
      settingsButtons := h.settingsButtons.map (highlight h.api.settingsButtonActive n) } _
    (currentLevel_of_mem ICON
      { h with
        data := { text := .str h.element.innerHTML, level := n }
        element := writtenElement h n h.element.innerHTML
        settingsButtons := h.settingsButtons.map (highlight h.api.settingsButtonActive n) } hn)
  rw [hs]
  refine ⟨rfl, ?_⟩
  simp only [hg, writtenElement_innerHTML]

/-- Witness of claim C9: `setLevel(5)` on the sample block, mounted. -/
theorem setLevel_then_data_witness :
    currentLevel sampleIcons (mount sampleBlock) = .ok { level := 2, tag := "H2", icon := "H2" }
      ∧ 5 ∈ catalogLevels sampleIcons (mount sampleBlock).settings
      ∧ (setLevel sampleIcons (mount sampleBlock) 5).1 = .ok ()
      ∧ (getData sampleIcons (setLevel sampleIcons (mount sampleBlock) 5).2).1
          = .ok { text := .str "hello", level := 5 } :=
  ⟨rfl, by decide,
    setLevel_then_data sampleIcons (mount sampleBlock) 5 { level := 2, tag := "H2", icon := "H2" }
      rfl (by decide)⟩

/-! ## Validation -/

theorem trimChars_eq_nil (cs : List Char) :
    trimChars cs = [] ↔ ∀ c ∈ cs, isStrWhiteSpace c = true := by
  unfold trimChars
  rw [List.reverse_eq_nil_iff, List.dropWhile_eq_nil_iff]
  constructor
  · intro h
    by_contra hne
    push_neg at hne
    have hd : cs.dropWhile isStrWhiteSpace ≠ [] := by
      intro h0
      rw [List.dropWhile_eq_nil_iff] at h0
      obtain ⟨c, hc, hw⟩ := hne
      exact hw (h0 c hc)
    obtain ⟨c, rest, hcr⟩ := List.exists_cons_of_ne_nil hd
    have hhead : isStrWhiteSpace c = true := h c (by rw [hcr]; simp)
    have := List.head_dropWhile_not isStrWhiteSpace cs hd
    simp only [hcr, List.head_cons] at this
    rw [hhead] at this
    exact absurd this (by simp)
  · intro h c hc
    have : cs.dropWhile isStrWhiteSpace = [] := by
      rw [List.dropWhile_eq_nil_iff]; exact h
    rw [this] at hc
    simp at hc

/-! ## Settings controls -/

/-- What `setLevel` does when the current level resolves and the new level is in
the catalog. -/
theorem setLevel_ok (ICON : String → String) (h : Header) (n : Int) (lv : Level)
    (hcur : currentLevel ICON h = .ok lv) (hn : n ∈ catalogLevels ICON h.settings) :
    setLevel ICON h n
      = (.ok (), { h with
          data := { text := .str h.element.innerHTML, level := n }
          element := writtenElement h n h.element.innerHTML
          settingsButtons := h.settingsButtons.map (highlight h.api.settingsButtonActive n) }) := by
  have hset := setData_record ICON
    { h with data := { text := .str h.element.innerHTML, level := lv.level } }
    [("level", .num n), ("text", .str h.element.innerHTML)] n h.element.innerHTML
    (by simp [List.lookup]) (by simp [List.lookup]) hn
  simp only [setLevel, getData_ok ICON h lv hcur, hset]
  rfl

theorem contains_classToggle (classes : List String) (token : String) (force : Bool) :
    (classToggle classes token force).contains token = force := by
  cases force
  · simp [classToggle]
  · by_cases hc : classes.contains token = true
    · simp only [classToggle, classAdd, hc, if_true]
    · have hm : token ∉ classes := by simpa using hc
      simp [classToggle, classAdd, hm]

theorem isActive_highlight (api : Api) (n : Int) (button : Button) :
    (isActive api (highlight api.settingsButtonActive n button) = true
        ↔ boundLevel button = some n)
      ∧ boundLevel (highlight api.settingsButtonActive n button) = boundLevel button := by
  refine ⟨?_, rfl⟩
  simp only [isActive, highlight, contains_classToggle, boundLevel, beq_iff_eq]

theorem getSubTools_eq_map (ICON : String → String) (settings : HeaderConfig) :
    getSubTools ICON settings = (catalogLevels ICON settings).map (subTool ICON) := by
  simp only [catalogLevels, getSubTools, List.map_map]
  apply List.map_congr_left
  intro l _
  rfl

theorem catalogLevels_nodup (ICON : String → String) (settings : HeaderConfig) :
    (catalogLevels ICON settings).Nodup := by
  have hmap : catalogLevels ICON settings
      = match settings.levels with
        | some configured => tags.filter (fun l => configured.contains l)
        | none => tags := by
    simp only [catalogLevels, getSubTools, List.map_map]
    exact List.map_id _
  rw [hmap]
  cases settings.levels with
  | none => exact tags_sorted.nodup
  | some configured => exact (List.Pairwise.filter _ tags_sorted).nodup

theorem renderButtons_ok (ICON : String → String) (lv : Level) :
    ∀ (levels : List SubTool) (holder : List Button) (h : Header),
      currentLevel ICON h = .ok lv →
      renderButtons ICON levels holder h
        = (.ok (holder ++ levels.map (levelButton h.api lv.level)),
            { h with settingsButtons :=
                h.settingsButtons ++ levels.map (levelButton h.api lv.level) }) := by
  intro levels
  induction levels with
  | nil => intro holder h _; simp [renderButtons]
  | cons level rest ih =>
    intro holder h hcur
    have hnext : currentLevel ICON
        { h with settingsButtons := h.settingsButtons ++ [levelButton h.api lv.level level] }
          = .ok lv := hcur
    have hstep := ih (holder ++ [levelButton h.api lv.level level])
      { h with settingsButtons := h.settingsButtons ++ [levelButton h.api lv.level level] } hnext
    have hunfold : renderButtons ICON (level :: rest) holder h
        = renderButtons ICON rest (holder ++ [levelButton h.api lv.level level])
            { h with settingsButtons := h.settingsButtons ++ [levelButton h.api lv.level level] } := by
      simp only [renderButtons, hcur]
      rfl
    rw [hunfold, hstep]
    simp

theorem boundLevel_levelButton (ICON : String → String) (api : Api) (current l : Int)
    (hl : 1 ≤ l ∧ l ≤ 6) :
    boundLevel (levelButton api current (subTool ICON l)) = some l := by
  apply parseIntChars_numberToString
  have : l.natAbs ≤ 6 := by omega
  calc l.natAbs ≤ 6 := this
    _ < 2 ^ 53 := by norm_num

theorem isActive_levelButton (api : Api) (current : Int) (level : SubTool)
    (hcss : api.settingsButton ≠ api.settingsButtonActive) :
    isActive api (levelButton api current level) = (current == level.level) := by
  by_cases hc : current = level.level
  · simp [isActive, levelButton, hc, classAdd, hcss, Ne.symm hcss]
  · have hb : (current == level.level) = false := by simpa using hc
    simp [isActive, levelButton, hb, hcss, Ne.symm hcss]

/-! ## The tag of the view -/

theorem currentLevel_congr (ICON : String → String) (h h2 : Header)
    (hs : h2.settings = h.settings) (hd : h2.data.level = h.data.level) :
    currentLevel ICON h2 = currentLevel ICON h := by
  simp only [currentLevel, hs, hd]

theorem getTag_header (ICON : String → String) (h h2 : Header) (tag : Element)
    (hg : getTag ICON h = (.ok tag, h2)) :
    (∃ lv, currentLevel ICON h2 = .ok lv ∧ h2.element.header = lv.tag)
      ∧ h2.element.mounted = h.element.mounted := by
  unfold getTag at hg
  cases ht : (h.data.text.or (.str "")).toStr with
  | error e => simp [ht] at hg
  | ok html =>
    simp only [ht] at hg
    cases hc : currentLevel ICON { h with element := { h.element with innerHTML := html } } with
    | error e => simp [hc] at hg
    | ok current =>
      simp only [hc, Prod.mk.injEq, Except.ok.injEq] at hg
      obtain ⟨_, rfl⟩ := hg
      exact ⟨⟨current, hc, rfl⟩, rfl⟩

theorem getTag_tagged (ICON : String → String) (h h2 : Header) (tag : Element)
    (hm : h.element.mounted = true) (hg : getTag ICON h = (.ok tag, h2)) : Tagged ICON h2 := by
  obtain ⟨hlv, hmounted⟩ := getTag_header ICON h h2 tag hg
  exact ⟨by rw [hmounted]; exact hm, hlv⟩

/-- A successful write that carries a level re-tags a mounted view. -/
theorem setData_tagged (ICON : String → String) (h h2 : Header) (data : JSVal)
    (hm : h.element.mounted = true) (hlevel : (data.field "level").isDefined = true)
    (hw : setData ICON h data = (.ok (), h2)) : Tagged ICON h2 := by
  unfold setData at hw
  cases hn : normalizeData h.settings data with
  | error e => simp [hn] at hw
  | ok normalized =>
    simp only [hn] at hw
    cases hl : data.get "level" with
    | error e => simp [hl] at hw
    | ok level =>
      have hdef : level.isDefined = true := by
        simpa [JSVal.field, hl] using hlevel
      simp only [hl, hdef, hm, Bool.and_self, if_true] at hw
      cases hg : getTag ICON { h with data := normalized } with
      | mk r h3 =>
        cases r with
        | error e => simp [hg] at hw
        | ok tag =>
          obtain ⟨hm3, lv, hc3, hh3⟩ :=
            getTag_tagged ICON { h with data := normalized } h3 tag hm hg
          simp only [hg] at hw
          cases htx : data.get "text" with
          | error e => simp [htx] at hw
          | ok text =>
            simp only [htx] at hw
            by_cases hd : text.isDefined = true
            · simp only [hd, if_true] at hw
              cases hs : (h3.data.text.or (.str "")).toStr with
              | error e => simp [hs] at hw
              | ok html =>
                simp only [hs, Prod.mk.injEq, true_and] at hw
                subst hw
                exact ⟨hm3, lv, hc3, hh3⟩
            · have hd2 : text.isDefined = false := by simpa using hd
              simp only [hd2, Bool.false_eq_true, if_false, Prod.mk.injEq, true_and] at hw
              subst hw
              exact ⟨hm3, lv, hc3, hh3⟩

theorem getData_element (ICON : String → String) (h : Header) :
    (getData ICON h).2.element = h.element := by
  simp only [getData]
  split <;> rfl

theorem Tagged.of_eq (ICON : String → String) (h h2 : Header) (ht : Tagged ICON h)
    (hs : h2.settings = h.settings) (hd : h2.data.level = h.data.level)
    (he : h2.element = h.element) : Tagged ICON h2 := by
  obtain ⟨hm, lv, hc, hh⟩ := ht
  exact ⟨by rw [he]; exact hm, lv, by rw [currentLevel_congr ICON h h2 hs hd]; exact hc,
    by rw [he]; exact hh⟩

theorem setLevel_tagged (ICON : String → String) (h h2 : Header) (n : Int)
    (hm : h.element.mounted = true) (hw : setLevel ICON h n = (.ok (), h2)) : Tagged ICON h2 := by
  unfold setLevel at hw
  have he := getData_element ICON h
  cases hg : getData ICON h with
  | mk r h1 =>
    rw [hg] at he
    cases r with
    | error e => simp [hg] at hw
    | ok current =>
      simp only [hg] at hw
      cases hs : setData ICON h1 (.obj [("level", .num n), ("text", current.text)]) with
      | mk r2 h3 =>
        cases r2 with
        | error e => simp [hs] at hw
        | ok u =>
          have ht := setData_tagged ICON h1 h3
            (.obj [("level", .num n), ("text", current.text)]) (by rw [he]; exact hm) rfl hs
          simp only [hs, Prod.mk.injEq, true_and] at hw
          subst hw
          exact Tagged.of_eq ICON h3 _ ht rfl rfl rfl

theorem merge_tagged (ICON : String → String) (h h2 : Header) (data : JSVal)
    (hm : h.element.mounted = true) (hw : merge ICON h data = (.ok (), h2)) : Tagged ICON h2 := by
  unfold merge at hw
  have he := getData_element ICON h
  cases hg : getData ICON h with
  | mk r h1 =>
    rw [hg] at he
    cases r with
    | error e => simp [hg] at hw
    | ok current =>
      simp only [hg] at hw
      cases hi : data.get "text" with
      | error e => simp [hi] at hw
      | ok incoming =>
        simp only [hi] at hw
        cases hl : current.text.toStr with
        | error e => simp [hl] at hw
        | ok left =>
          cases hr : incoming.toStr with
          | error e => simp [hl, hr] at hw
          | ok right =>
            simp only [hl, hr] at hw
            have he2 := getData_element ICON h1
            cases hg2 : getData ICON h1 with
            | mk r2 h3 =>
              rw [hg2] at he2
              cases r2 with
              | error e => simp [hg2] at hw
              | ok again =>
                simp only [hg2] at hw
                exact setData_tagged ICON h3 h2
                  (.obj [("text", .str (left ++ right)), ("level", .num again.level)])
                  (by rw [he2, he]; exact hm) rfl hw

theorem pasteLevel_isDefined (ICON : String → String) (settings : HeaderConfig)
    (content : PasteElement) (v : JSVal) (hp : pasteLevel ICON settings content = .ok v) :
    v.isDefined = true := by
  unfold pasteLevel at hp
  cases hg : getLevel ICON settings settings.defaultLevel with
  | error e => simp [hg] at hp
  | ok fallback =>
    simp only [hg] at hp
    cases hl : settings.levels with
    | none =>
      simp only [hl, Except.ok.injEq] at hp
      subst hp
      split <;> first | rfl | (split <;> rfl)
    | some configured =>
      simp only [hl] at hp
      split at hp
      · cases hp
      · simp only [Except.ok.injEq] at hp
        subst hp
        rfl

theorem onPaste_tagged (ICON : String → String) (h h2 : Header) (content : PasteElement)
    (hm : h.element.mounted = true) (hw : onPaste ICON h content = (.ok (), h2)) :
    Tagged ICON h2 := by
  unfold onPaste at hw
  cases hp : pasteLevel ICON h.settings content with
  | error e => simp [hp] at hw
  | ok level =>
    simp only [hp] at hw
    have hd := pasteLevel_isDefined ICON h.settings content level hp
    exact setData_tagged ICON h h2 _ hm (by simpa [JSVal.field, JSVal.get, List.lookup] using hd) hw

theorem construct_tagged (ICON : String → String) (data : JSVal) (config : RawConfig) (api : Api)
    (readOnly : Bool) (h : Header) (hc : construct ICON data config api readOnly = .ok h) :
    Tagged ICON (mount h) := by
  unfold construct at hc
  cases hn : normalizeData (assignDefaults config) data with
  | error e => simp [hn] at hc
  | ok normalized =>
    simp only [hn] at hc
    cases hg : getTag ICON
        { api := api, readOnly := readOnly, settings := assignDefaults config, data := normalized,
          settingsButtons := [], element := newTag } with
    | mk r h1 =>
      cases r with
      | error e => simp [hg] at hc
      | ok tag =>
        simp only [hg, Except.ok.injEq] at hc
        subst hc
        obtain ⟨⟨lv, hcur, hh⟩, _⟩ := getTag_header ICON _ h1 tag hg
        exact ⟨rfl, lv, hcur, hh⟩

/-! ## Normalisation of any input; construction and saving -/

theorem field_of_not_object (x : JSVal) (key : String) (hx : (x.typeof != "object") = true) :
    x.field key = .undefined := by
  cases x with
  | null => exact absurd hx (by decide)
  | obj fields =>
    have : ((JSVal.obj fields).typeof != "object") = false := rfl
    rw [this] at hx
    cases hx
  | _ => rfl

/-- A block constructed from data that `typeof` does not call an object, or from
the empty record, saves the empty text and the default level, when that level
is in the catalog. -/
theorem construct_save_default (ICON : String → String) (config : RawConfig) (api : Api)
    (readOnly : Bool) (data : JSVal)
    (hdata : (data.typeof != "object") = true ∨ data = .obj [])
    (hdef : (assignDefaults config).defaultLevel ∈ catalogLevels ICON (assignDefaults config)) :
    ∃ h, construct ICON data config api readOnly = .ok h
      ∧ save ICON h (render h) = .ok ("", (assignDefaults config).defaultLevel) := by
  have hn : normalizeData (assignDefaults config) data
      = .ok { text := .str "", level := (assignDefaults config).defaultLevel } := by
    rcases hdata with hd | hd
    · have hx : data ≠ .null := by rintro rfl; exact absurd hd (by decide)
      rw [normalizeData_eq _ _ hx, field_of_not_object data "level" hd,
        field_of_not_object data "text" hd]
      rfl
    · subst hd; rfl
  have hb := catalog_bounds ICON _ _ hdef
  have h0 : ((assignDefaults config).defaultLevel != 0) = true := by
    simp only [bne_iff_ne, ne_eq]; omega
  simp only [construct, hn, getTag, str_or_empty, JSVal.toStr, currentLevel, h0, if_true,
    getLevel_eq, hdef]
  refine ⟨_, rfl, ?_⟩
  simp only [save, render, currentLevel, h0, if_true, getLevel_eq, hdef]

/-! ## Claims on validation, settings, the view and construction -/

/-- Claim C11: for a block data whose text is the string `s`, `validate` returns
`false` exactly when every character of `s` is white space (the empty string
included), and `true` exactly when some character is not. -/
theorem validate_false_iff (blockData : JSVal) (s : String)
    (htext : blockData.get "text" = .ok (.str s)) :
    (validate blockData = .ok false ↔ ∀ c ∈ s.data, isStrWhiteSpace c = true)
      ∧ (validate blockData = .ok true ↔ ¬ ∀ c ∈ s.data, isStrWhiteSpace c = true) := by
  have hv : validate blockData = .ok (String.mk (trimChars s.data) != "") := by
    simp only [validate, htext]
  have hne : (String.mk (trimChars s.data) != "") = true ↔ trimChars s.data ≠ [] := by
    rw [bne_iff_ne, ne_eq, ne_eq]
    constructor
    · intro h h0; exact h (by rw [h0])
    · intro h h0; exact h (by simpa using congrArg String.data h0)
  rw [hv, ← trimChars_eq_nil]
  constructor
  · constructor
    · intro h
      by_contra hn
      have := hne.mpr hn
      simp only [Except.ok.injEq] at h
      rw [h] at this; exact absurd this (by simp)
    · intro h
      cases hb : (String.mk (trimChars s.data) != "")
      · rfl
      · exact absurd h (hne.mp hb)
  · constructor
    · intro h
      simp only [Except.ok.injEq] at h
      exact hne.mp h
    · intro h
      rw [hne.mpr h]

/-- Witness of claim C11: a text of three blanks. -/
theorem validate_false_iff_witness :
    (JSVal.obj [("text", .str "   ")]).get "text" = .ok (.str "   ")
      ∧ (validate (.obj [("text", .str "   ")]) = .ok false
          ↔ ∀ c ∈ ("   " : String).data, isStrWhiteSpace c = true)
      ∧ (validate (.obj [("text", .str "   ")]) = .ok true
          ↔ ¬ ∀ c ∈ ("   " : String).data, isStrWhiteSpace c = true) :=
  ⟨rfl, validate_false_iff (.obj [("text", .str "   ")]) "   " rfl⟩

/-- The examples of the specification for `validate`: blanks and the empty text
are rejected, `ok` is accepted. -/
theorem validate_examples :
    validate (.obj [("text", .str "   ")]) = .ok false
      ∧ validate (.obj [("text", .str "ok")]) = .ok true
      ∧ validate (.obj [("text", .str "")]) = .ok false :=
  ⟨rfl, rfl, rfl⟩

/-- Claim C12: in a block whose current level resolves (the host's two class names
being distinct), `renderSettings()` returns no control when the catalog has at
most one entry; with two entries or more it returns one control per catalog
entry, in catalog order, bound to the level of its entry and showing its icon,
a control is marked active exactly when its level is the current one, and
exactly one control is marked active.  The controls are retained. -/
theorem renderSettings_controls (ICON : String → String) (h : Header) (lv : Level)
    (hcur : currentLevel ICON h = .ok lv)
    (hcss : h.api.settingsButton ≠ h.api.settingsButtonActive) :
    ((getSubTools ICON h.settings).length ≤ 1 → renderSettings ICON h = (.ok [], h))
      ∧ (2 ≤ (getSubTools ICON h.settings).length →
          ∃ holder, (renderSettings ICON h).1 = .ok holder
            ∧ holder = (getSubTools ICON h.settings).map (levelButton h.api lv.level)
            ∧ holder.map boundLevel = (catalogLevels ICON h.settings).map some
            ∧ holder.map (fun button => button.innerHTML)
                = (getSubTools ICON h.settings).map (fun level => level.icon)
            ∧ (∀ button ∈ holder,
                (isActive h.api button = true ↔ boundLevel button = some lv.level))
            ∧ (holder.filter (isActive h.api)).length = 1
            ∧ (renderSettings ICON h).2.settingsButtons = h.settingsButtons ++ holder) := by
  constructor
  · intro hle
    simp only [renderSettings, hle, if_true]
  · intro hge
    have hnot : ¬ (getSubTools ICON h.settings).length ≤ 1 := by omega
    have hr : renderSettings ICON h
        = (.ok ((getSubTools ICON h.settings).map (levelButton h.api lv.level)),
            { h with settingsButtons := h.settingsButtons
                ++ (getSubTools ICON h.settings).map (levelButton h.api lv.level) }) := by
      simp only [renderSettings, hnot, if_false]
      rw [renderButtons_ok ICON lv _ [] h hcur]
      simp
    have hbound : ∀ l ∈ catalogLevels ICON h.settings,
        boundLevel (levelButton h.api lv.level (subTool ICON l)) = some l :=
      fun l hl => boundLevel_levelButton ICON h.api lv.level l (catalog_bounds ICON h.settings l hl)
    have hmem := (currentLevel_level ICON h lv hcur).1
    refine ⟨_, by rw [hr], rfl, ?_, ?_, ?_, ?_, by rw [hr]⟩
    · rw [getSubTools_eq_map, List.map_map, List.map_map]
      apply List.map_congr_left
      intro l hl
      exact hbound l hl
    · simp only [List.map_map]
      apply List.map_congr_left
      intro s _
      rfl
    · intro button hb
      rw [getSubTools_eq_map, List.map_map] at hb
      obtain ⟨l, hl, rfl⟩ := List.mem_map.mp hb
      simp only [Function.comp]
      rw [isActive_levelButton _ _ _ hcss, hbound l hl]
      simp only [beq_iff_eq, Option.some.injEq, subTool]
      exact eq_comm
    · rw [getSubTools_eq_map, List.map_map, List.filter_map, List.length_map]
      have hfun : (isActive h.api ∘ (levelButton h.api lv.level ∘ subTool ICON))
          = fun l => l == lv.level := by
        funext l
        simp only [Function.comp, isActive_levelButton _ _ _ hcss, subTool]
        by_cases hl : l = lv.level
        · simp [hl]
        · have : ¬ lv.level = l := fun e => hl e.symm
          simp [hl, this]
      rw [hfun, ← List.countP_eq_length_filter]
      exact List.count_eq_one_of_mem (catalogLevels_nodup ICON h.settings) hmem

/-- Witness of claim C12: the settings of the sample block, full catalog and
current level 2. -/
theorem renderSettings_controls_witness :
    currentLevel sampleIcons sampleBlock = .ok { level := 2, tag := "H2", icon := "H2" }
      ∧ sampleBlock.api.settingsButton ≠ sampleBlock.api.settingsButtonActive
      ∧ ((getSubTools sampleIcons sampleBlock.settings).length ≤ 1
          → renderSettings sampleIcons sampleBlock = (.ok [], sampleBlock))
      ∧ (2 ≤ (getSubTools sampleIcons sampleBlock.settings).length →
          ∃ holder, (renderSettings sampleIcons sampleBlock).1 = .ok holder
            ∧ holder = (getSubTools sampleIcons sampleBlock.settings).map
                (levelButton sampleBlock.api 2)
            ∧ holder.map boundLevel = (catalogLevels sampleIcons sampleBlock.settings).map some
            ∧ holder.map (fun button => button.innerHTML)
                = (getSubTools sampleIcons sampleBlock.settings).map (fun level => level.icon)
            ∧ (∀ button ∈ holder,
                (isActive sampleBlock.api button = true ↔ boundLevel button = some 2))
            ∧ (holder.filter (isActive sampleBlock.api)).length = 1
            ∧ (renderSettings sampleIcons sampleBlock).2.settingsButtons
                = sampleBlock.settingsButtons ++ holder) :=
  ⟨rfl, by decide,
    renderSettings_controls sampleIcons sampleBlock { level := 2, tag := "H2", icon := "H2" } rfl
      (by decide)⟩

/-- Counterexample to claim C13: the sample block is what construction yields; a
`setLevel(5)` before the view is mounted leaves `dataset.header` at `H2` while
the current tag is `H5`; and on the mounted block at level 5, a data write
that carries only a text resets the level to the default and leaves
`dataset.header` at `H5` while the current tag is `H2`. -/
theorem header_stale :
    construct sampleIcons (.obj [("text", .str "hello"), ("level", .num 2)]) { } sampleApi false
        = .ok sampleBlock
      ∧ (setLevel sampleIcons sampleBlock 5).1 = .ok ()
      ∧ (setLevel sampleIcons sampleBlock 5).2.element.header = "H2"
      ∧ (currentLevel sampleIcons (setLevel sampleIcons sampleBlock 5).2).map (fun lv => lv.tag)
          = .ok "H5"
      ∧ (setData sampleIcons leveledBlock (.obj [("text", .str "x")])).1 = .ok ()
      ∧ (setData sampleIcons leveledBlock (.obj [("text", .str "x")])).2.element.header = "H5"
      ∧ (currentLevel sampleIcons
            (setData sampleIcons leveledBlock (.obj [("text", .str "x")])).2).map
          (fun lv => lv.tag) = .ok "H2" :=
  ⟨rfl, rfl, rfl, rfl, rfl, rfl, rfl⟩

/-- Claim C14: `getLevel(v)` fails, with the level-not-found condition, exactly
when `v` is not the level of an entry of the catalog; it succeeds exactly when
`v` is one, and what it returns then has level `v` and tag `H` followed by
`v`. -/
theorem getLevel_fails_iff (ICON : String → String) (settings : HeaderConfig) (v : Int) :
    (getLevel ICON settings v = .error .levelNotFound ↔ v ∉ catalogLevels ICON settings)
      ∧ (getLevel ICON settings v = .ok { level := v, tag := hTag v, icon := ICON (hTag v) }
          ↔ v ∈ catalogLevels ICON settings)
      ∧ ∀ lv, getLevel ICON settings v = .ok lv → lv.level = v ∧ lv.tag = hTag v := by
  rw [getLevel_eq]
  by_cases hmem : v ∈ catalogLevels ICON settings
  · simp only [hmem, if_true, not_true_eq_false, iff_false, iff_true, true_and]
    refine ⟨by simp, ?_⟩
    intro lv hlv
    cases hlv
    exact ⟨rfl, rfl⟩
  · simp only [hmem, if_false, not_false_eq_true, iff_true, iff_false, true_and]
    refine ⟨by simp, ?_⟩
    intro lv hlv
    cases hlv

/-- Claim C15, the code at the failing input: on the mounted sample block, whose
view holds `hello`, a data write with only level 5 succeeds and leaves the view
empty; on the same block not mounted the view keeps `hello`. -/
theorem setData_level_only_wipes_text :
    (mount sampleBlock).element.innerHTML = "hello"
      ∧ (setData sampleIcons (mount sampleBlock) (.obj [("level", .num 5)])).1 = .ok ()
      ∧ (setData sampleIcons (mount sampleBlock) (.obj [("level", .num 5)])).2.element.innerHTML = ""
      ∧ (setData sampleIcons sampleBlock (.obj [("level", .num 5)])).2.element.innerHTML = "hello" :=
  ⟨rfl, rfl, rfl, rfl⟩

/-- Counterexample to claim C16: a record whose level is an object with an own
`toString` property makes `normalizeData` throw; no default level is
substituted. -/
theorem normalizeData_level_object_throws :
    normalizeData { } (.obj [("level", .obj [("toString", .num 1)])]) = .error .notPrimitive :=
  rfl

/-- Claim C16, amended: for an input other than `null` whose level converts to a
string, `normalizeData` returns a record; its level is the integer `parseInt`
reads from the input level when that is not zero, and `defaultLevel` when the
level is missing, unparseable or zero; its text is the input text when that is
truthy and the empty string otherwise; for an input that `typeof` does not
call an object the record is the empty text with `defaultLevel`. -/
theorem normalizeData_fields (settings : HeaderConfig) (x : JSVal)
    (hx : x ≠ .null) (hs : (x.field "level").stringifies = true) :
    ∃ r p, normalizeData settings x = .ok r ∧ parseInt (x.field "level") = .ok p
      ∧ (∀ n, p = some n → n ≠ 0 → r.level = n)
      ∧ (p = none ∨ p = some 0 → r.level = settings.defaultLevel)
      ∧ (x.field "level" = .undefined → r.level = settings.defaultLevel)
      ∧ ((x.field "text").truthy = true → r.text = x.field "text")
      ∧ ((x.field "text").truthy = false → r.text = .str "")
      ∧ ((x.typeof != "object") = true
          → r.text = .str "" ∧ r.level = settings.defaultLevel) := by
  obtain ⟨p, hp⟩ := parseInt_of_stringifies _ hs
  have hundef : x.field "level" = .undefined → p = none := by
    intro hu
    rw [hu] at hp
    have h2 : parseInt .undefined = .ok none := rfl
    rw [h2] at hp; cases hp; rfl
  rw [normalizeData_eq settings x hx, hp]
  refine ⟨_, p, rfl, rfl, ?_, ?_, ?_, ?_, ?_, ?_⟩
  · intro n hn hn0
    subst hn
    simp [levelOr, hn0]
  · rintro (h | h) <;> subst h <;> rfl
  · intro hu
    rw [hundef hu]; rfl
  · intro ht
    show (x.field "text").or (.str "") = x.field "text"
    simp only [JSVal.or, ht, if_true]
  · intro hf
    show (x.field "text").or (.str "") = .str ""
    simp only [JSVal.or, hf, Bool.false_eq_true, if_false]
  · intro hno
    constructor
    · show (x.field "text").or (.str "") = .str ""
      rw [field_of_not_object x "text" hno]; rfl
    · show levelOr p settings.defaultLevel = settings.defaultLevel
      rw [hundef (field_of_not_object x "level" hno)]; rfl

/-- Witness of claim C16: a record with text `Title` and level string `3`. -/
theorem normalizeData_fields_witness :
    JSVal.obj [("text", .str "Title"), ("level", .str "3")] ≠ .null
      ∧ ((JSVal.obj [("text", .str "Title"), ("level", .str "3")]).field "level").stringifies
          = true
      ∧ ∃ r p, normalizeData { } (.obj [("text", .str "Title"), ("level", .str "3")]) = .ok r
          ∧ parseInt ((JSVal.obj [("text", .str "Title"), ("level", .str "3")]).field "level")
              = .ok p
          ∧ (∀ n, p = some n → n ≠ 0 → r.level = n)
          ∧ (p = none ∨ p = some 0 → r.level = ({ } : HeaderConfig).defaultLevel)
          ∧ ((JSVal.obj [("text", .str "Title"), ("level", .str "3")]).field "level" = .undefined
              → r.level = ({ } : HeaderConfig).defaultLevel)
          ∧ (((JSVal.obj [("text", .str "Title"), ("level", .str "3")]).field "text").truthy = true
              → r.text = (JSVal.obj [("text", .str "Title"), ("level", .str "3")]).field "text")
          ∧ (((JSVal.obj [("text", .str "Title"), ("level", .str "3")]).field "text").truthy = false
              → r.text = .str "")
          ∧ (((JSVal.obj [("text", .str "Title"), ("level", .str "3")]).typeof != "object") = true
              → r.text = .str "" ∧ r.level = ({ } : HeaderConfig).defaultLevel) :=
  ⟨by simp, rfl,
    normalizeData_fields { } (.obj [("text", .str "Title"), ("level", .str "3")]) (by simp) rfl⟩

/-- Claim C17: in a block whose current level resolves, with any controls
retained, `setLevel(n)` for a catalog level `n` succeeds, keeps every control
bound to its level, and leaves a control marked active exactly when its bound
level is `n`. -/
theorem setLevel_highlights (ICON : String → String) (h : Header) (n : Int) (lv : Level)
    (hcur : currentLevel ICON h = .ok lv) (hn : n ∈ catalogLevels ICON h.settings) :
    (setLevel ICON h n).1 = .ok ()
      ∧ (setLevel ICON h n).2.settingsButtons.map boundLevel = h.settingsButtons.map boundLevel
      ∧ ∀ button ∈ (setLevel ICON h n).2.settingsButtons,
          (isActive (setLevel ICON h n).2.api button = true ↔ boundLevel button = some n) := by
  rw [setLevel_ok ICON h n lv hcur hn]
  refine ⟨rfl, ?_, ?_⟩
  · simp only [List.map_map]
    apply List.map_congr_left
    intro b _
    exact (isActive_highlight h.api n b).2
  · intro button hb
    simp only [List.mem_map] at hb
    obtain ⟨b, _, rfl⟩ := hb
    have := isActive_highlight h.api n b
    rw [this.2]
    exact this.1

/-- Witness of claim C17: `setLevel(5)` on the sample block once its settings
are rendered. -/
theorem setLevel_highlights_witness :
    currentLevel sampleIcons renderedBlock = .ok { level := 2, tag := "H2", icon := "H2" }
      ∧ 5 ∈ catalogLevels sampleIcons renderedBlock.settings
      ∧ (setLevel sampleIcons renderedBlock 5).1 = .ok ()
      ∧ (setLevel sampleIcons renderedBlock 5).2.settingsButtons.map boundLevel
          = renderedBlock.settingsButtons.map boundLevel
      ∧ ∀ button ∈ (setLevel sampleIcons renderedBlock 5).2.settingsButtons,
          (isActive (setLevel sampleIcons renderedBlock 5).2.api button = true
            ↔ boundLevel button = some 5) :=
  ⟨rfl, by decide,
    setLevel_highlights sampleIcons renderedBlock 5 { level := 2, tag := "H2", icon := "H2" } rfl
      (by decide)⟩

/-- The controls of the sample block after `renderSettings()` and `setLevel(5)`:
six controls bound to 1..6, the fifth alone marked active. -/
theorem setLevel_highlights_example :
    (setLevel sampleIcons renderedBlock 5).2.settingsButtons.map
        (fun button => (boundLevel button, isActive sampleApi button))
      = [(some 1, false), (some 2, false), (some 3, false), (some 4, false), (some 5, true),
          (some 6, false)] := rfl

/-- Claim C18, the code at the failing input: constructing a block from `null`
throws, whatever the configuration, so nothing can be saved. -/
theorem construct_null_throws (ICON : String → String) (config : RawConfig) (api : Api)
    (readOnly : Bool) :
    construct ICON .null config api readOnly = .error .nullishData := rfl

/-- Claim C19: when the configured default level is not in the catalog, `onPaste`
fails with the level-not-found condition for every pasted element and leaves
the block as it was, text and level included. -/
theorem onPaste_stray_default (ICON : String → String) (h : Header) (content : PasteElement)
    (hdef : h.settings.defaultLevel ∉ catalogLevels ICON h.settings) :
    onPaste ICON h content = (.error .levelNotFound, h)
      ∧ (onPaste ICON h content).2.data.level = h.data.level
      ∧ (onPaste ICON h content).2.element.innerHTML = h.element.innerHTML := by
  have hp : pasteLevel ICON h.settings content = .error .levelNotFound := by
    simp [pasteLevel, getLevel_eq, hdef]
  have ho : onPaste ICON h content = (.error .levelNotFound, h) := by
    simp [onPaste, hp]
  rw [ho]
  exact ⟨rfl, rfl, rfl⟩

/-- Witness of claim C19: levels 4 and 5 with the default level 2, a block holding
level 4, and a pasted `H4`, a heading of the catalog. -/
theorem onPaste_stray_default_witness :
    strayDefaultBlock.settings.defaultLevel ∉ catalogLevels sampleIcons strayDefaultBlock.settings
      ∧ onPaste sampleIcons strayDefaultBlock (PasteElement.mk "H4" "pasted")
          = (.error .levelNotFound, strayDefaultBlock)
      ∧ (onPaste sampleIcons strayDefaultBlock (PasteElement.mk "H4" "pasted")).2.data.level
          = strayDefaultBlock.data.level
      ∧ (onPaste sampleIcons strayDefaultBlock (PasteElement.mk "H4" "pasted")).2.element.innerHTML
          = strayDefaultBlock.element.innerHTML :=
  ⟨by decide, onPaste_stray_default sampleIcons strayDefaultBlock (PasteElement.mk "H4" "pasted")
    (by decide)⟩

/-! ## Merging on a host document -/

theorem getTagOn_id (ICON : String → String) (h : Header) : getTagOn id ICON h = getTag ICON h :=
  rfl

theorem setDataOn_id (ICON : String → String) (h : Header) (data : JSVal) :
    setDataOn id ICON h data = setData ICON h data := rfl

theorem mergeOn_id (ICON : String → String) (h : Header) (data : JSVal) :
    mergeOn id ICON h data = merge ICON h data := rfl

theorem setDataOn_record (dom : String → String) (ICON : String → String) (h : Header)
    (fields : List (String × JSVal)) (l : Int) (s : String)
    (hl : fields.lookup "level" = some (.num l)) (ht : fields.lookup "text" = some (.str s))
    (hcat : l ∈ catalogLevels ICON h.settings) :
    setDataOn dom ICON h (.obj fields)
      = (.ok (), { h with data := { text := .str s, level := l }
                          element := writtenElementOn dom h l s }) := by
  have hb := catalog_bounds ICON h.settings l hcat
  have h0 : (l != 0) = true := by
    simp only [bne_iff_ne, ne_eq]; omega
  have hn := normalizeData_record ICON h.settings fields l s hl ht hcat
  cases hm : h.element.mounted
  · simp [setDataOn, hn, JSVal.get, hl, ht, JSVal.isDefined, hm, str_or_empty, JSVal.toStr,
      writtenElementOn]
  · simp [setDataOn, hn, JSVal.get, hl, ht, JSVal.isDefined, hm, str_or_empty, JSVal.toStr,
      writtenElementOn, getTagOn, currentLevel, h0, getLevel_eq, hcat]

theorem writtenElementOn_innerHTML (dom : String → String) (h : Header) (l : Int) (s : String) :
    (writtenElementOn dom h l s).innerHTML = dom s := by
  unfold writtenElementOn
  split_ifs <;> rfl

/-! ## The tag of the view across operations -/

/-- A write that carries no level, or that is made while the view is not
mounted, leaves `dataset.header` as it was, whatever its outcome. -/
theorem setData_header_frame (ICON : String → String) (h : Header) (data : JSVal)
    (hno : (data.field "level").isDefined = false ∨ h.element.mounted = false) :
    (setData ICON h data).2.element.header = h.element.header := by
  unfold setData
  cases hn : normalizeData h.settings data with
  | error e => rfl
  | ok normalized =>
    cases hl : data.get "level" with
    | error e => rfl
    | ok level =>
      have hcond : (level.isDefined && h.element.mounted) = false := by
        rcases hno with h1 | h1
        · have : level.isDefined = false := by simpa [JSVal.field, hl] using h1
          simp [this]
        · simp [h1]
      simp only [hcond, Bool.false_eq_true, if_false]
      cases htx : data.get "text" with
      | error e => rfl
      | ok text =>
        simp only []
        by_cases hd : text.isDefined = true
        · simp only [hd, if_true]
          cases hs : (normalized.text.or (.str "")).toStr with
          | error e => rfl
          | ok html => rfl
        · have hd2 : text.isDefined = false := by simpa using hd
          simp only [hd2, Bool.false_eq_true, if_false]

theorem setLevel_header_frame (ICON : String → String) (h : Header) (n : Int)
    (hm : h.element.mounted = false) :
    (setLevel ICON h n).2.element.header = h.element.header := by
  have he := getData_element ICON h
  unfold setLevel
  cases hg : getData ICON h with
  | mk r h1 =>
    rw [hg] at he
    replace he : h1.element = h.element := he
    cases r with
    | error e => show h1.element.header = h.element.header; rw [he]
    | ok current =>
      simp only []
      have hf := setData_header_frame ICON h1 (.obj [("level", .num n), ("text", current.text)])
        (Or.inr (by rw [he]; exact hm))
      cases hs : setData ICON h1 (.obj [("level", .num n), ("text", current.text)]) with
      | mk r2 h3 =>
        rw [hs] at hf
        replace hf : h3.element.header = h1.element.header := hf
        cases r2 with
        | error e => show h3.element.header = h.element.header; rw [hf, he]
        | ok u => show h3.element.header = h.element.header; rw [hf, he]

theorem merge_header_frame (ICON : String → String) (h : Header) (data : JSVal)
    (hm : h.element.mounted = false) :
    (merge ICON h data).2.element.header = h.element.header := by
  have he := getData_element ICON h
  unfold merge
  cases hg : getData ICON h with
  | mk r h1 =>
    rw [hg] at he
    replace he : h1.element = h.element := he
    cases r with
    | error e => show h1.element.header = h.element.header; rw [he]
    | ok current =>
      simp only []
      cases hi : data.get "text" with
      | error e => show h1.element.header = h.element.header; rw [he]
      | ok incoming =>
        simp only []
        cases hl : current.text.toStr with
        | error e => show h1.element.header = h.element.header; rw [he]
        | ok left =>
          cases hr : incoming.toStr with
          | error e => show h1.element.header = h.element.header; rw [he]
          | ok right =>
            simp only []
            have he2 := getData_element ICON h1
            cases hg2 : getData ICON h1 with
            | mk r2 h3 =>
              rw [hg2] at he2
              replace he2 : h3.element = h1.element := he2
              cases r2 with
              | error e => show h3.element.header = h.element.header; rw [he2, he]
              | ok again =>
                simp only []
                rw [setData_header_frame ICON h3 _ (Or.inr (by rw [he2, he]; exact hm)), he2, he]

theorem onPaste_header_frame (ICON : String → String) (h : Header) (content : PasteElement)
    (hm : h.element.mounted = false) :
    (onPaste ICON h content).2.element.header = h.element.header := by
  unfold onPaste
  cases hp : pasteLevel ICON h.settings content with
  | error e => rfl
  | ok level =>
    simp only []
    exact setData_header_frame ICON h _ (Or.inr hm)

theorem Op_header_frame (ICON : String → String) (h : Header) (op : Op)
    (hno : h.element.mounted = false ∨ op.carriesLevel = false) :
    (op.run ICON h).2.element.header = h.element.header := by
  cases op with
  | write data =>
    rcases hno with hm | hc
    · exact setData_header_frame ICON h data (Or.inr hm)
    · exact setData_header_frame ICON h data (Or.inl hc)
  | setLevel level =>
    rcases hno with hm | hc
    · exact setLevel_header_frame ICON h level hm
    · cases hc
  | merge data =>
    rcases hno with hm | hc
    · exact merge_header_frame ICON h data hm
    · cases hc
  | onPaste content =>
    rcases hno with hm | hc
    · exact onPaste_header_frame ICON h content hm
    · cases hc

theorem Op_tagged (ICON : String → String) (h h2 : Header) (op : Op)
    (hm : h.element.mounted = true) (hc : op.carriesLevel = true)
    (hw : op.run ICON h = (.ok (), h2)) : Tagged ICON h2 := by
  cases op with
  | write data => exact setData_tagged ICON h h2 data hm hc hw
  | setLevel level => exact setLevel_tagged ICON h h2 level hm hw
  | merge data => exact merge_tagged ICON h h2 data hm hw
  | onPaste content => exact onPaste_tagged ICON h h2 content hm hw

/-! ## Claims on merging and on the tag of the view -/

/-- Counterexample to claim C10: on a document that escapes a text node, the
block whose view holds `hello`, merged with the text ` > world`, reads back
`hello &gt; world` and not `hello > world`. -/
theorem merge_text_reserialised :
    sampleBlock.element.innerHTML = "hello"
      ∧ (mergeOn escapeText sampleIcons sampleBlock (.obj [("text", .str " > world")])).1 = .ok ()
      ∧ (getData sampleIcons
          (mergeOn escapeText sampleIcons sampleBlock (.obj [("text", .str " > world")])).2).1
          = .ok { text := .str "hello &gt; world", level := 2 } :=
  ⟨rfl, rfl, rfl⟩

/-- Claim C10, amended: in a block whose view holds text `t` and whose level `l`
is in the catalog, `merge(incoming)` with an incoming string text `s` succeeds,
and a read of `data` then returns level `l` and, as text, what the document
reads back once `t ++ s` is assigned to the view: `t ++ s` itself when the
document stores it as it is. -/
theorem mergeOn_then_data (dom : String → String) (ICON : String → String) (h : Header)
    (incoming : JSVal) (s : String) (l : Int)
    (hl : h.data.level = l) (hcat : l ∈ catalogLevels ICON h.settings)
    (hin : incoming.get "text" = .ok (.str s)) :
    (mergeOn dom ICON h incoming).1 = .ok ()
      ∧ (getData ICON (mergeOn dom ICON h incoming).2).1
          = .ok { text := .str (dom (h.element.innerHTML ++ s)), level := l }
      ∧ (dom (h.element.innerHTML ++ s) = h.element.innerHTML ++ s →
          (getData ICON (mergeOn dom ICON h incoming).2).1
            = .ok { text := .str (h.element.innerHTML ++ s), level := l }) := by
  subst hl
  have hcur := currentLevel_of_mem ICON h hcat
  have hg1 := getData_ok ICON h _ hcur
  have hg2 := getData_ok ICON
    { h with data := { text := .str h.element.innerHTML, level := h.data.level } } _
    (currentLevel_of_mem ICON
      { h with data := { text := .str h.element.innerHTML, level := h.data.level } } hcat)
  have hset := setDataOn_record dom ICON
    { h with data := { text := .str h.element.innerHTML, level := h.data.level } }
    [("text", .str (h.element.innerHTML ++ s)), ("level", .num h.data.level)] h.data.level
    (h.element.innerHTML ++ s) (by simp [List.lookup]) (by simp [List.lookup]) hcat
  have hm : mergeOn dom ICON h incoming
      = (.ok (), { h with
          data := { text := .str (h.element.innerHTML ++ s), level := h.data.level }
          element := writtenElementOn dom h h.data.level (h.element.innerHTML ++ s) }) := by
    simp only [mergeOn, hg1, hin, JSVal.toStr, hg2, hset]
    rfl
  have hg3 := getData_ok ICON
    { h with
      data := { text := .str (h.element.innerHTML ++ s), level := h.data.level }
      element := writtenElementOn dom h h.data.level (h.element.innerHTML ++ s) } _
    (currentLevel_of_mem ICON
      { h with
        data := { text := .str (h.element.innerHTML ++ s), level := h.data.level }
        element := writtenElementOn dom h h.data.level (h.element.innerHTML ++ s) } hcat)
  have hread : (getData ICON (mergeOn dom ICON h incoming).2).1
      = .ok { text := .str (dom (h.element.innerHTML ++ s)), level := h.data.level } := by
    rw [hm]
    simp only [hg3, writtenElementOn_innerHTML]
  refine ⟨by rw [hm], hread, ?_⟩
  intro hd
  rw [hread, hd]

/-- Witness of claim C10: the sample block, holding `hello` at level 2, merged
with the text ` world` on a document that escapes a text node. -/
theorem mergeOn_then_data_witness :
    sampleBlock.data.level = 2 ∧ 2 ∈ catalogLevels sampleIcons sampleBlock.settings
      ∧ (JSVal.obj [("text", .str " world")]).get "text" = .ok (.str " world")
      ∧ (mergeOn escapeText sampleIcons sampleBlock (.obj [("text", .str " world")])).1 = .ok ()
      ∧ (getData sampleIcons
          (mergeOn escapeText sampleIcons sampleBlock (.obj [("text", .str " world")])).2).1
          = .ok { text := .str (escapeText ("hello" ++ " world")), level := 2 }
      ∧ (escapeText ("hello" ++ " world") = "hello" ++ " world" →
          (getData sampleIcons
            (mergeOn escapeText sampleIcons sampleBlock (.obj [("text", .str " world")])).2).1
            = .ok { text := .str ("hello" ++ " world"), level := 2 }) :=
  ⟨rfl, by decide, rfl,
    mergeOn_then_data escapeText sampleIcons sampleBlock (.obj [("text", .str " world")])
      " world" 2 rfl (by decide) rfl⟩

/-- The example of the specification for `merge`: `hello` merged with ` world`
reads back `hello world`, a text that the document stores as it is. -/
theorem merge_example :
    escapeText "hello world" = "hello world"
      ∧ (getData sampleIcons
          (mergeOn escapeText sampleIcons sampleBlock (.obj [("text", .str " world")])).2).1
          = .ok { text := .str "hello world", level := 2 } :=
  ⟨rfl, rfl⟩

/-- Claim C13, amended: `dataset.header` equals `currentLevel.tag` in every state
reached from construction by mounting the view and by successful data
writes, `setLevel`, `merge` and `onPaste` of which each either is performed while
the view is mounted and carries a level, or leaves the current level as it
was; every successful operation that carries a level and is performed while
the view is mounted re-synchronises the two, whatever the state before; and
every operation performed while the view is not mounted, like every data
write that carries no level, leaves `dataset.header` as it was, whatever its
outcome. -/
theorem header_synchronised (ICON : String → String) :
    (∀ h, SyncRun ICON h → ∃ lv, currentLevel ICON h = .ok lv ∧ h.element.header = lv.tag)
      ∧ (∀ (h h2 : Header) (op : Op), h.element.mounted = true → op.carriesLevel = true →
          op.run ICON h = (.ok (), h2) →
          ∃ lv, currentLevel ICON h2 = .ok lv ∧ h2.element.header = lv.tag)
      ∧ (∀ (h : Header) (op : Op), h.element.mounted = false ∨ op.carriesLevel = false →
          (op.run ICON h).2.element.header = h.element.header) := by
  refine ⟨?_, fun h h2 op hm hc hw => (Op_tagged ICON h h2 op hm hc hw).2,
    fun h op hno => Op_header_frame ICON h op hno⟩
  intro h hr
  induction hr with
  | constructed data config api readOnly h hc =>
    exact (construct_tagged ICON data config api readOnly h hc).2
  | mounted h _ ih => exact ih
  | synced h h2 op _ hm hc hw _ => exact (Op_tagged ICON h h2 op hm hc hw).2
  | still h h2 op _ hw hsame ih =>
    by_cases hcase : h.element.mounted = true ∧ op.carriesLevel = true
    · exact (Op_tagged ICON h h2 op hcase.1 hcase.2 hw).2
    · have hno : h.element.mounted = false ∨ op.carriesLevel = false := by
        by_cases hm : h.element.mounted = true
        · right
          have : ¬ op.carriesLevel = true := fun hc => hcase ⟨hm, hc⟩
          simpa using this
        · left; simpa using hm
      have hf := Op_header_frame ICON h op hno
      rw [hw] at hf
      obtain ⟨lv, hcur, hh⟩ := ih
      exact ⟨lv, by rw [hsame]; exact hcur, by rw [hf]; exact hh⟩

/-- Witness of claim C13: the sample block as constructed, merged with ` world`
before its view is mounted, then mounted and set to level 5; and `setLevel(5)`
on the sample block not mounted, which leaves `dataset.header` at `H2`. -/
theorem header_synchronised_witness :
    SyncRun sampleIcons
        (setLevel sampleIcons
          (mount (merge sampleIcons sampleBlock (.obj [("text", .str " world")])).2) 5).2
      ∧ (∃ lv, currentLevel sampleIcons
            (setLevel sampleIcons
              (mount (merge sampleIcons sampleBlock (.obj [("text", .str " world")])).2) 5).2
            = .ok lv
          ∧ (setLevel sampleIcons
              (mount (merge sampleIcons sampleBlock (.obj [("text", .str " world")])).2)
              5).2.element.header = lv.tag)
      ∧ (sampleBlock.element.mounted = false ∨ (Op.setLevel 5).carriesLevel = false)
      ∧ ((Op.setLevel 5).run sampleIcons sampleBlock).2.element.header
          = sampleBlock.element.header :=
  ⟨SyncRun.synced _ _ (Op.setLevel 5)
      (SyncRun.mounted _
        (SyncRun.still sampleBlock _ (Op.merge (.obj [("text", .str " world")]))
          (SyncRun.constructed (.obj [("text", .str "hello"), ("level", .num 2)]) { } sampleApi
            false sampleBlock rfl) rfl rfl)) rfl rfl rfl,
    (header_synchronised sampleIcons).1 _
      (SyncRun.synced _ _ (Op.setLevel 5)
        (SyncRun.mounted _
          (SyncRun.still sampleBlock _ (Op.merge (.obj [("text", .str " world")]))
            (SyncRun.constructed (.obj [("text", .str "hello"), ("level", .num 2)]) { } sampleApi
              false sampleBlock rfl) rfl rfl)) rfl rfl rfl),
    Or.inl rfl,
    (header_synchronised sampleIcons).2.2 sampleBlock (Op.setLevel 5) (Or.inl rfl)⟩

end HeaderTool
